import Mathlib

/-!
Verification development for the alsa-sound-playground repository.

The C++ sources are shallowly embedded:

* `getTruncatedSample` models the 24-bit to 16-bit reducer of
  minPcmBitDepthConv.cpp;
* `swap16`, `htons16`, `convToBigEndian`, `mainNormalize` and
  `prepWriteBufferNormalize` model the endianness normalization of all three
  programs;
* `pushChannels`, `expandPeriod` and `fillBuffer` model the sample
  replicator of unnamed/part_000;
* `emitFrame`, `segStep`, `nextCallPos`, `segNext` and `segRun` model the
  ring-segmenting write loop of minPcmStereo.cpp `main`;
* `synthSample` models the sine synthesis loop of minPcmStereo.cpp `main`
  over the reals (doubles idealized as reals), and `monoSine1kHzLoopUp` is
  the hard-coded table of unnamed/part_000.

Machine integer quantities are modelled as `Int`/`Nat`; the C++ `>>` on a
negative `int32_t` is an arithmetic shift (floor division), and the C++ `/`
on `int` truncates toward zero (`Int.tdiv`).
-/

namespace AlsaPlayground

/-! ## Bit-depth reducer (minPcmBitDepthConv.cpp) -/

/-- Model of `getTruncatedSample` (minPcmBitDepthConv.cpp lines 23-42).
`(res + 128) >> 8` is an arithmetic right shift of a signed 32-bit value,
i.e. floor division by 256; the clamp mirrors the `if`/`else if` chain; the
final `(res * 29204) / 32768` uses C++ `/`, which truncates toward zero. -/
def getTruncatedSample (audioSample24bit : Int) : Int :=
  let res1 := Int.fdiv (audioSample24bit + 128) 256
  let res2 := if res1 < -32768 then -32768 else if res1 > 32767 then 32767 else res1
  Int.tdiv (res2 * 29204) 32768

/-- Stage 1 of the reduction pipeline as the spec words it: add the +128
rounding bias, then arithmetic right shift by 8 bits. -/
def shiftStage (x : Int) : Int := Int.fdiv (x + 128) 256

/-- Stage 2 of the reduction pipeline: clamp to the signed 16-bit range. -/
def clampStage (r : Int) : Int := max (-32768) (min 32767 r)

/-- Stage 3 of the reduction pipeline: fixed rational damping by about one
dB, with truncating integer division. -/
def dampStage (r : Int) : Int := Int.tdiv (r * 29204) 32768

/-- The code function factors exactly as shift, then clamp, then damp. -/
lemma getTruncatedSample_eq_pipeline (x : Int) :
    getTruncatedSample x = dampStage (clampStage (shiftStage x)) := by
  simp only [getTruncatedSample, dampStage, clampStage, shiftStage, max_def, min_def]
  congr 1
  split_ifs <;> omega

/-- The clamp stage lands in the signed 16-bit range. -/
lemma clampStage_mem (r : Int) : -32768 ≤ clampStage r ∧ clampStage r ≤ 32767 := by
  unfold clampStage
  simp only [max_def, min_def]
  split_ifs <;> omega

/-- The damping stage maps the 16-bit range into [-29204, 29203]. -/
lemma dampStage_bounds (r : Int) (h1 : -32768 ≤ r) (h2 : r ≤ 32767) :
    -29204 ≤ dampStage r ∧ dampStage r ≤ 29203 := by
  unfold dampStage
  rcases le_or_lt 0 r with hr | hr
  · have hnn : (0 : Int) ≤ r * 29204 := by positivity
    rw [Int.tdiv_eq_ediv hnn (by norm_num)]
    have hub : r * 29204 ≤ 956927468 := by nlinarith
    constructor <;> omega
  · have hneg : r * 29204 = -((-r) * 29204) := by ring
    rw [hneg, Int.neg_tdiv]
    have hnn : (0 : Int) ≤ (-r) * 29204 := by nlinarith
    rw [Int.tdiv_eq_ediv hnn (by norm_num)]
    have hub : (-r) * 29204 ≤ 957022208 := by nlinarith
    constructor <;> omega

/-- C3: the bit-depth reducer computes its output in exactly the order
shift-with-bias, clamp to [-32768, 32767], then rational damping
`(r * 29204) / 32768`, with the clamp applied before the damping. -/
theorem c3_reducer_stage_order (x : Int)
    (hlo : -8388608 ≤ x) (hhi : x ≤ 8388607) :
    getTruncatedSample x = dampStage (clampStage (shiftStage x)) :=
  getTruncatedSample_eq_pipeline x

/-- Witness for C3 at the maximal 24-bit input. -/
theorem c3_reducer_stage_order_witness :
    -8388608 ≤ (8388607 : Int) ∧ (8388607 : Int) ≤ 8388607 ∧
      getTruncatedSample 8388607 = dampStage (clampStage (shiftStage 8388607)) :=
  ⟨by decide, by decide, c3_reducer_stage_order 8388607 (by decide) (by decide)⟩

/-- C9: on the signed 24-bit input range the reducer output stays inside
[-29204, 29203]; in particular it never leaves the 16-bit signed range and
keeps more than 3500 counts of headroom below its limits. -/
theorem c9_reducer_output_range (x : Int)
    (hlo : -8388608 ≤ x) (hhi : x ≤ 8388607) :
    -29204 ≤ getTruncatedSample x ∧ getTruncatedSample x ≤ 29203 := by
  rw [getTruncatedSample_eq_pipeline]
  obtain ⟨h1, h2⟩ := clampStage_mem (shiftStage x)
  exact dampStage_bounds _ h1 h2

/-- Witness for C9 at the minimal 24-bit input. -/
theorem c9_reducer_output_range_witness :
    -8388608 ≤ (-8388608 : Int) ∧ (-8388608 : Int) ≤ 8388607 ∧
      -29204 ≤ getTruncatedSample (-8388608) ∧
      getTruncatedSample (-8388608) ≤ 29203 := by
  refine ⟨by decide, by decide, ?_⟩
  exact c9_reducer_output_range (-8388608) (by decide) (by decide)

/-! ## Endianness normalization -/

/-- Byte swap of a 16-bit value: exchange the high and the low byte. -/
def swap16 (v : Nat) : Nat := (v % 256) * 256 + v / 256

/-- Model of POSIX `htons` on a host whose little-endianness is `le`: on a
little-endian host it swaps the two bytes of its argument, on a big-endian
host it is the identity. -/
def htons16 (le : Bool) (v : Nat) : Nat := if le then swap16 v else v

/-- Model of `convToBigEndian` (minPcmBitDepthConv.cpp lines 49-53,
minPcmStereo.cpp lines 62-66, unnamed/part_000 lines 98-103): `htons` is
applied to every element of the buffer in place. -/
def convToBigEndian (le : Bool) (buff : List Nat) : List Nat :=
  buff.map (htons16 le)

/-- Model of the guarded call site in `main` of minPcmStereo.cpp (lines
114-117): `convToBigEndian` runs only when `runningOnLittleEndianHost()`
returns true. -/
def mainNormalize (le : Bool) (buff : List Nat) : List Nat :=
  if le then convToBigEndian le buff else buff

/-- Model of the normalization inside `prepWriteBuffer` of unnamed/part_000
(lines 105-118). The `if` at line 112 tests the function pointer
`runningOnLittleEndianHost` rather than calling it, so the branch is always
taken and `convToBigEndian` runs unconditionally; `htons` itself is still
the identity on a big-endian host. -/
def prepWriteBufferNormalize (le : Bool) (buff : List Nat) : List Nat :=
  convToBigEndian le buff

/-- Mapping the identity over a buffer changes nothing. -/
lemma convToBigEndian_false (buff : List Nat) : convToBigEndian false buff = buff := by
  unfold convToBigEndian htons16
  simp

/-- C6: on a little-endian host every 16-bit element gets its two bytes
swapped in place, and on a big-endian host the array is left entirely
unchanged — in both the guarded call of minPcmStereo.cpp and the
unconditionally calling `prepWriteBuffer` of unnamed/part_000. -/
theorem c6_endianness_conditional (buff : List Nat) :
    mainNormalize true buff = buff.map swap16 ∧
    prepWriteBufferNormalize true buff = buff.map swap16 ∧
    mainNormalize false buff = buff ∧
    prepWriteBufferNormalize false buff = buff := by
  refine ⟨?_, ?_, ?_, ?_⟩
  · unfold mainNormalize convToBigEndian htons16
    simp
  · unfold prepWriteBufferNormalize convToBigEndian htons16
    simp
  · unfold mainNormalize
    simp
  · exact convToBigEndian_false buff

/-- Swapping the two bytes of a 16-bit value twice restores it. -/
lemma swap16_swap16 (v : Nat) (h : v < 65536) : swap16 (swap16 v) = v := by
  unfold swap16
  omega

/-- C8: byte-order normalization is an involution — applying
`convToBigEndian` twice to an array of 16-bit values restores the original
bytes, on either kind of host. -/
theorem c8_normalize_involution (le : Bool) (buff : List Nat)
    (h : ∀ v ∈ buff, v < 65536) :
    convToBigEndian le (convToBigEndian le buff) = buff := by
  cases le
  · rw [convToBigEndian_false, convToBigEndian_false]
  · unfold convToBigEndian htons16
    simp only [if_pos, List.map_map]
    induction buff with
    | nil => rfl
    | cons a tl ih =>
      simp only [List.map_cons, Function.comp_apply, List.cons.injEq]
      exact ⟨swap16_swap16 a (h a (by simp)), ih fun v hv => h v (by simp [hv])⟩

/-- Witness for C8 on a concrete three-element buffer. -/
theorem c8_normalize_involution_witness :
    (∀ v ∈ [1, 43981, 65535], v < 65536) ∧
      convToBigEndian true (convToBigEndian true [1, 43981, 65535]) = [1, 43981, 65535] :=
  ⟨by decide, c8_normalize_involution true [1, 43981, 65535] (by decide)⟩

/-! ## Sample replicator (unnamed/part_000 `fillBuffer`) -/

/-- Model of the inner channel loop of `fillBuffer` (unnamed/part_000 lines
88-91): one mono sample is pushed once per audio channel. -/
def pushChannels (channels : Nat) (s : Int) : List Int := List.replicate channels s

/-- Model of one `std::for_each` pass over the mono period inside
`fillBuffer`: every source sample expands to `channels` consecutive slots
holding the identical value. -/
def expandPeriod (channels : Nat) (period : List Int) : List Int :=
  period.flatMap (pushChannels channels)

/-- Model of `fillBuffer` (unnamed/part_000 lines 81-96): the expanded mono
period is appended `reps` times (`reps` is `params::SINES_IN_FRAME`). -/
def fillBuffer (reps channels : Nat) (period : List Int) : List Int :=
  match reps with
  | 0 => []
  | r + 1 => expandPeriod channels period ++ fillBuffer r channels period

lemma expandPeriod_length (channels : Nat) (period : List Int) :
    (expandPeriod channels period).length = period.length * channels := by
  induction period with
  | nil => simp [expandPeriod]
  | cons a tl ih =>
    simp only [expandPeriod, List.flatMap_cons, List.length_append, pushChannels,
      List.length_replicate] at *
    simp [ih]
    ring

lemma fillBuffer_length (reps channels : Nat) (period : List Int) :
    (fillBuffer reps channels period).length = reps * (period.length * channels) := by
  induction reps with
  | zero => simp [fillBuffer]
  | succ r ih =>
    simp only [fillBuffer, List.length_append, expandPeriod_length, ih]
    ring

lemma expandPeriod_getElem? (channels : Nat) (period : List Int) (i j : Nat)
    (hi : i < period.length) (hj : j < channels) :
    (expandPeriod channels period)[channels * i + j]? = period[i]? := by
  induction period generalizing i with
  | nil => simp at hi
  | cons a tl ih =>
    cases i with
    | zero =>
      simp only [expandPeriod, List.flatMap_cons, List.getElem?_append, pushChannels,
        List.length_replicate, List.getElem?_replicate]
      rw [if_pos (by omega), if_pos (by omega)]
      simp
    | succ i2 =>
      simp only [expandPeriod, List.flatMap_cons, List.getElem?_append, pushChannels,
        List.length_replicate]
      rw [if_neg (by push_neg; nlinarith)]
      have harg : channels * (i2 + 1) + j - channels = channels * i2 + j := by
        have : channels * (i2 + 1) = channels * i2 + channels := by ring
        omega
      rw [harg]
      have := ih i2 (by simpa using hi)
      simpa [expandPeriod] using this

lemma fillBuffer_getElem? (reps channels : Nat) (period : List Int) (pos : Nat)
    (hpos : pos < reps * (period.length * channels)) :
    (fillBuffer reps channels period)[pos]? =
      (expandPeriod channels period)[pos % (period.length * channels)]? := by
  induction reps generalizing pos with
  | zero => omega
  | succ r ih =>
    simp only [fillBuffer, List.getElem?_append, expandPeriod_length]
    rcases lt_or_le pos (period.length * channels) with h | h
    · rw [if_pos h, Nat.mod_eq_of_lt h]
    · rw [if_neg (not_lt.mpr h)]
      have hlt : pos - period.length * channels < r * (period.length * channels) := by
        have : (r + 1) * (period.length * channels) =
            r * (period.length * channels) + period.length * channels := by ring
        omega
      rw [ih _ hlt, Nat.mod_eq_sub_mod h]

/-- C5: the replicator fills the ring exactly and periodically — the output
length equals the requested capacity, each mono source sample occupies
`channels` consecutive interleaved slots holding its value, and every
position repeats the position reduced modulo one expanded period. -/
theorem c5_replicator_periodic_fill (reps channels : Nat) (period : List Int)
    (capacity : Nat) (hcap : capacity = reps * (period.length * channels)) :
    (fillBuffer reps channels period).length = capacity ∧
    (∀ i j, i < reps * period.length → j < channels →
      (fillBuffer reps channels period)[channels * i + j]? = period[i % period.length]?) ∧
    (∀ pos, pos < capacity →
      (fillBuffer reps channels period)[pos]? =
        (fillBuffer reps channels period)[pos % (period.length * channels)]?) := by
  subst hcap
  refine ⟨fillBuffer_length reps channels period, ?_, ?_⟩
  · intro i j hi hj
    have hL : 0 < period.length := by
      rcases Nat.eq_zero_or_pos period.length with h0 | h0
      · rw [h0] at hi; omega
      · exact h0
    have hmod : i % period.length < period.length := Nat.mod_lt i hL
    have hdm : period.length * (i / period.length) + i % period.length = i :=
      Nat.div_add_mod i period.length
    have hsmall : channels * (i % period.length) + j < period.length * channels := by
      have h2 : channels * (i % period.length + 1) ≤ channels * period.length :=
        Nat.mul_le_mul_left channels hmod
      have hh : channels * (i % period.length + 1) =
          channels * (i % period.length) + channels := by ring
      have hcomm : channels * period.length = period.length * channels :=
        Nat.mul_comm _ _
      omega
    have hidx : channels * i + j < reps * (period.length * channels) := by
      have h1 : i + 1 ≤ reps * period.length := hi
      have h2 : channels * (i + 1) ≤ channels * (reps * period.length) :=
        Nat.mul_le_mul_left channels h1
      have h3 : channels * (i + 1) = channels * i + channels := by ring
      have h4 : channels * (reps * period.length) = reps * (period.length * channels) := by
        ring
      omega
    rw [fillBuffer_getElem? reps channels period _ hidx]
    have hdecomp : channels * i + j =
        (period.length * channels) * (i / period.length) +
          (channels * (i % period.length) + j) := by
      conv_lhs => rw [← hdm]
      ring
    rw [hdecomp, Nat.mul_add_mod, Nat.mod_eq_of_lt hsmall]
    exact expandPeriod_getElem? channels period (i % period.length) j hmod hj
  · intro pos hpos
    have hL : 0 < period.length * channels := by
      rcases Nat.eq_zero_or_pos (period.length * channels) with h0 | h0
      · rw [h0] at hpos; omega
      · exact h0
    have hml := Nat.mod_lt pos hL
    have hmodlt : pos % (period.length * channels) < reps * (period.length * channels) := by
      rcases Nat.eq_zero_or_pos reps with h0 | h0
      · rw [h0] at hpos; omega
      · calc pos % (period.length * channels) < period.length * channels := hml
          _ = 1 * (period.length * channels) := by ring
          _ ≤ reps * (period.length * channels) :=
            Nat.mul_le_mul_right _ h0
    rw [fillBuffer_getElem? reps channels period pos hpos,
      fillBuffer_getElem? reps channels period _ hmodlt,
      Nat.mod_eq_of_lt hml]

/-- Witness for C5: a two-sample period replicated three times over two
channels. -/
theorem c5_replicator_periodic_fill_witness :
    (12 = 3 * (([5, 7] : List Int).length * 2)) ∧
      (fillBuffer 3 2 [5, 7]).length = 12 ∧
      (∀ i j, i < 3 * ([5, 7] : List Int).length → j < 2 →
        (fillBuffer 3 2 [5, 7])[2 * i + j]? = ([5, 7] : List Int)[i % 2]?) ∧
      (∀ pos, pos < 12 →
        (fillBuffer 3 2 [5, 7])[pos]? = (fillBuffer 3 2 [5, 7])[pos % 4]?) := by
  have h := c5_replicator_periodic_fill 3 2 [5, 7] 12 (by decide)
  exact ⟨by decide, h.1, by simpa using h.2.1, by simpa using h.2.2⟩

/-! ## Ring segmenter (minPcmStereo.cpp `main`, lines 119-178) -/

/-- State persisting across write-loop iterations in `main` of
minPcmStereo.cpp: the in-pass sample offset `writePos` and the pass-carry
`writePosReminder`. -/
structure SegState where
  writePos : Nat
  writePosReminder : Nat
deriving DecidableEq

/-- Frame assembled for one `snd_pcm_writei` call (minPcmStereo.cpp lines
130-153): when `nextFramePosEnd` exceeds the buffer size the frame is
spliced from the buffer tail and head with two `std::copy_n` calls,
otherwise it is the contiguous view starting at `writePos`.
`frameSamples` is `writeFrameSize*2`, in mono-sample units. -/
def emitFrame (buffer : List Int) (frameSamples writePos : Nat) : List Int :=
  let buffSampleCount := buffer.length
  let nextFramePosEnd := writePos + frameSamples
  if nextFramePosEnd > buffSampleCount then
    let lastBuffSamplesAmount := buffSampleCount - writePos
    let firstBuffSamplesAmount := frameSamples - lastBuffSamplesAmount
    (buffer.drop writePos).take lastBuffSamplesAmount ++
      buffer.take firstBuffSamplesAmount
  else
    (buffer.drop writePos).take frameSamples

/-- Effect of one loop iteration on the segmenter state when the sink
consumes `consumed` samples (`frames*2` in the source): `writePos` always
advances by `consumed` (line 172), while `writePosReminder` is assigned the
head-splice length in the wraparound branch only (line 146), before the
write even happens. -/
def segStep (buffSampleCount frameSamples consumed : Nat) (s : SegState) : SegState :=
  { writePos := s.writePos + consumed
    writePosReminder :=
      if s.writePos + frameSamples > buffSampleCount then
        frameSamples - (buffSampleCount - s.writePos)
      else s.writePosReminder }

/-- Sample offset the next `snd_pcm_writei` call reads from: the inner loop
continues at `writePos` while it is below the buffer size; once it is not,
the pass ends and the next pass starts at `writePosReminder`
(lines 126-130). -/
def nextCallPos (buffSampleCount : Nat) (s : SegState) : Nat :=
  if s.writePos < buffSampleCount then s.writePos else s.writePosReminder

/-- C1: frame emission is correct in both branches — with `F*N` samples per
frame, cursor `c` and capacity `C = buffer.length`, the contiguous branch is
taken exactly when `c + F*N ≤ C` and yields the slice `[c, c+F*N)`, and
otherwise the frame is the splice `buffer[c, C) ++ buffer[0, headCount)`
with `headCount = F*N - (C - c)`; in the wraparound case the cursor carried
to the next call (after the full frame is consumed) is `headCount`, which is
never 0. In both branches the emitted frame has exactly `F*N` samples. -/
theorem c1_segmenter_frame_emission (buffer : List Int) (F N c r : Nat)
    (hFN : F * N ≤ buffer.length) (hc : c < buffer.length) :
    (c + F * N ≤ buffer.length →
      emitFrame buffer (F * N) c = (buffer.drop c).take (F * N) ∧
      (emitFrame buffer (F * N) c).length = F * N) ∧
    (c + F * N > buffer.length →
      emitFrame buffer (F * N) c =
        (buffer.drop c).take (buffer.length - c) ++
          buffer.take (F * N - (buffer.length - c)) ∧
      (emitFrame buffer (F * N) c).length = F * N ∧
      (segStep buffer.length (F * N) (F * N) ⟨c, r⟩).writePosReminder =
        F * N - (buffer.length - c) ∧
      nextCallPos buffer.length (segStep buffer.length (F * N) (F * N) ⟨c, r⟩) =
        F * N - (buffer.length - c) ∧
      0 < F * N - (buffer.length - c)) := by
  constructor
  · intro h
    have hbr : ¬ (c + F * N > buffer.length) := not_lt.mpr h
    unfold emitFrame
    rw [if_neg hbr]
    refine ⟨rfl, ?_⟩
    simp only [List.length_take, List.length_drop]
    omega
  · intro h
    have hbr : c + F * N > buffer.length := h
    unfold emitFrame
    rw [if_pos hbr]
    refine ⟨rfl, ?_, ?_, ?_, ?_⟩
    · simp only [List.length_append, List.length_take, List.length_drop]
      omega
    · unfold segStep
      rw [if_pos hbr]
    · unfold nextCallPos segStep
      rw [if_neg (by simp only []; omega)]
      simp only []
      rw [if_pos hbr]
    · omega

/-- Witness for C1 at a wrapping cursor: capacity 6, frame 2*2, cursor 4. -/
theorem c1_segmenter_frame_emission_witness :
    (2 * 2 ≤ ([10, 11, 12, 13, 14, 15] : List Int).length) ∧
      (4 + 2 * 2 > ([10, 11, 12, 13, 14, 15] : List Int).length) ∧
      emitFrame [10, 11, 12, 13, 14, 15] (2 * 2) 4 = [14, 15, 10, 11] ∧
      (segStep 6 (2 * 2) (2 * 2) ⟨4, 0⟩).writePosReminder = 2 := by
  have h := (c1_segmenter_frame_emission [10, 11, 12, 13, 14, 15] 2 2 4 0
    (by decide) (by decide)).2 (by decide)
  exact ⟨by decide, by decide, by decide, by simpa using h.2.2.1⟩

/-- C7: cursor advance is asymmetric between branches — `writePos` always
advances by exactly the consumed sample count, so in the non-wraparound
branch the next read position reflects a short write, while
`writePosReminder` (the cursor carried to the next pass) is assigned
`headCount` in the wraparound branch no matter how many samples the sink
consumed, and is untouched otherwise. -/
theorem c7_cursor_advance_asymmetry (buffSampleCount frameSamples c r u u2 : Nat) :
    (segStep buffSampleCount frameSamples u ⟨c, r⟩).writePos = c + u ∧
    (c + frameSamples ≤ buffSampleCount →
      (segStep buffSampleCount frameSamples u ⟨c, r⟩).writePosReminder = r) ∧
    (c + frameSamples > buffSampleCount →
      (segStep buffSampleCount frameSamples u ⟨c, r⟩).writePosReminder =
          frameSamples - (buffSampleCount - c) ∧
        (segStep buffSampleCount frameSamples u ⟨c, r⟩).writePosReminder =
          (segStep buffSampleCount frameSamples u2 ⟨c, r⟩).writePosReminder) := by
  refine ⟨rfl, ?_, ?_⟩
  · intro h
    unfold segStep
    simp only []
    rw [if_neg (not_lt.mpr h)]
  · intro h
    unfold segStep
    simp only []
    rw [if_pos h]
    exact ⟨rfl, trivial⟩

/-- Witness for C7: a wrapping state where two different consumption counts
leave the same carried cursor. -/
theorem c7_cursor_advance_asymmetry_witness :
    (8 + 4 > 10) ∧
      (segStep 10 4 3 ⟨8, 0⟩).writePos = 8 + 3 ∧
      (segStep 10 4 3 ⟨8, 0⟩).writePosReminder = 4 - (10 - 8) ∧
      (segStep 10 4 3 ⟨8, 0⟩).writePosReminder =
        (segStep 10 4 4 ⟨8, 0⟩).writePosReminder := by
  have h := c7_cursor_advance_asymmetry 10 4 8 0 3 4
  exact ⟨by decide, h.1, (h.2.2 (by decide)).1, (h.2.2 (by decide)).2⟩

/-- Cursor evolution between two consecutive write calls when every call
consumes the full frame: one `segStep`, followed by the pass transition of
the two nested loops (the inner loop runs while `writePos` is below the
buffer size; the next pass restarts at `writePosReminder`). -/
def segNext (buffSampleCount frameSamples : Nat) (s : SegState) : SegState :=
  let s1 := segStep buffSampleCount frameSamples frameSamples s
  if s1.writePos < buffSampleCount then s1
  else { writePos := s1.writePosReminder, writePosReminder := s1.writePosReminder }

/-- Concatenation of the frames emitted by the first `k` write calls under
full consumption, starting from state `s`. -/
def segRun (buffer : List Int) (frameSamples : Nat) : Nat → SegState → List Int
  | 0, _ => []
  | k + 1, s =>
      emitFrame buffer frameSamples s.writePos ++
        segRun buffer frameSamples k (segNext buffer.length frameSamples s)

/-- The ring content cycled indefinitely, sliced from offset `start` for
`len` samples. -/
def ringCycle (buffer : List Int) (start len : Nat) : List Int :=
  (List.range len).map fun t => buffer.getD ((start + t) % buffer.length) 0

/-- C2 counterexample: on the ring [0,1,2,3,4,5] with 4 samples per frame
(frame length 2, two channels, 4 < 6), the concatenation of the first 4
frames is not the cyclic slice of length 16: after one wraparound the pass
carrying 2 ends exactly at the buffer boundary and the stale
`writePosReminder` restarts the next pass at 2 instead of 0. -/
theorem c2_phase_continuity_counterexample :
    segRun [0, 1, 2, 3, 4, 5] (2 * 2) 4 ⟨0, 0⟩ ≠
      ringCycle [0, 1, 2, 3, 4, 5] 0 (4 * (2 * 2)) := by
  decide

/-- Contiguous frames are cyclic slices. -/
lemma take_drop_eq_ringCycle (buffer : List Int) (c n : Nat)
    (h : c + n ≤ buffer.length) :
    (buffer.drop c).take n = ringCycle buffer c n := by
  apply List.ext_getElem?
  intro t
  rw [List.getElem?_take, List.getElem?_drop]
  unfold ringCycle
  rw [List.getElem?_map]
  rcases lt_or_le t n with ht | ht
  · rw [if_pos ht, List.getElem?_range ht]
    have hlt : c + t < buffer.length := by omega
    rw [Option.map_some']
    rw [Nat.mod_eq_of_lt hlt]
    rw [List.getElem?_eq_getElem hlt, List.getD_eq_getElem _ _ hlt]
  · rw [if_neg (not_lt.mpr ht)]
    have : (List.range n)[t]? = none := by
      rw [List.getElem?_eq_none_iff]
      simpa using ht
    rw [this]
    rfl

/-- Splitting a cyclic slice after the first `n` samples. -/
lemma ringCycle_split (buffer : List Int) (start n m : Nat) :
    ringCycle buffer start (n + m) =
      ringCycle buffer start n ++ ringCycle buffer ((start + n) % buffer.length) m := by
  unfold ringCycle
  rw [List.range_add, List.map_append, List.map_map]
  congr 1
  apply List.map_congr_left
  intro t _
  simp only [Function.comp_apply]
  congr 1
  rw [Nat.mod_add_mod]
  congr 1
  omega

/-- Under full-frame divisibility the run from any aligned cursor is the
cyclic slice starting there. -/
lemma segRun_dvd (buffer : List Int) (FN : Nat) (hFN : 0 < FN)
    (hdvd : FN ∣ buffer.length) :
    ∀ (k c : Nat), FN ∣ c → c + FN ≤ buffer.length →
      segRun buffer FN k ⟨c, 0⟩ = ringCycle buffer c (k * FN) := by
  intro k
  induction k with
  | zero =>
    intro c _ _
    simp [segRun, ringCycle]
  | succ k2 ih =>
    intro c hc hle
    have hnowrap : ¬ (c + FN > buffer.length) := not_lt.mpr hle
    have hframe : emitFrame buffer FN c = (buffer.drop c).take FN := by
      unfold emitFrame
      rw [if_neg hnowrap]
    have hnext : segNext buffer.length FN ⟨c, 0⟩ =
        ⟨(c + FN) % buffer.length, 0⟩ := by
      unfold segNext segStep
      simp only []
      rw [if_neg hnowrap]
      rcases lt_or_le (c + FN) buffer.length with hlt | hge
      · rw [if_pos hlt, Nat.mod_eq_of_lt hlt]
      · have heq : c + FN = buffer.length := le_antisymm hle hge
        rw [if_neg (by omega)]
        rw [heq, Nat.mod_self]
    have hcnext : FN ∣ (c + FN) % buffer.length :=
      (Nat.dvd_mod_iff hdvd).mpr (Nat.dvd_add hc dvd_rfl)
    have hlen : 0 < buffer.length := by omega
    have hmodlt : (c + FN) % buffer.length < buffer.length := Nat.mod_lt _ hlen
    have hnextle : (c + FN) % buffer.length + FN ≤ buffer.length := by
      have hsub : FN ∣ buffer.length - (c + FN) % buffer.length :=
        Nat.dvd_sub' hdvd hcnext
      have hpos : 0 < buffer.length - (c + FN) % buffer.length := by omega
      have := Nat.le_of_dvd hpos hsub
      omega
    show emitFrame buffer FN c ++ segRun buffer FN k2 (segNext buffer.length FN ⟨c, 0⟩) =
      ringCycle buffer c ((k2 + 1) * FN)
    rw [hframe, hnext, ih _ hcnext hnextle,
      take_drop_eq_ringCycle buffer c FN hle]
    rw [show (k2 + 1) * FN = FN + k2 * FN by ring, ringCycle_split]

/-- C2 amended: phase continuity across wraps holds when the frame sample
count divides the ring capacity — starting from cursor 0, the concatenation
of the first `k` emitted frames is the ring content cycled from offset 0
for `k * F * N` samples. Without divisibility, a pass can end exactly at
the buffer boundary and restart at the stale `writePosReminder`, breaking
the cyclic property (see the counterexample). -/
theorem c2_phase_continuity_of_dvd (buffer : List Int) (FN k : Nat)
    (hlt : FN < buffer.length) (hdvd : FN ∣ buffer.length) :
    segRun buffer FN k ⟨0, 0⟩ = ringCycle buffer 0 (k * FN) := by
  have hpos : 0 < FN := by
    rcases Nat.eq_zero_or_pos FN with h0 | h0
    · subst h0
      rcases hdvd with ⟨m, hm⟩
      omega
    · exact h0
  exact segRun_dvd buffer FN hpos hdvd k 0 (Nat.dvd_zero FN) (by omega)

/-- Witness for C2 amended: ring of 6 samples, 3 samples per frame, 5
frames. -/
theorem c2_phase_continuity_of_dvd_witness :
    (3 < ([0, 1, 2, 3, 4, 5] : List Int).length) ∧
      (3 ∣ ([0, 1, 2, 3, 4, 5] : List Int).length) ∧
      segRun [0, 1, 2, 3, 4, 5] 3 5 ⟨0, 0⟩ = ringCycle [0, 1, 2, 3, 4, 5] 0 (5 * 3) :=
  ⟨by decide, by decide,
    c2_phase_continuity_of_dvd [0, 1, 2, 3, 4, 5] 3 5 (by decide) (by decide)⟩

/-! ## Sine synthesis (minPcmStereo.cpp lines 75-94, unnamed/part_000 lines
128-131)

Doubles are idealized as reals; the decimal constants are the exact
rationals written in the sources.  A C++ `static_cast` from `double` to a
16-bit integer type truncates toward zero for in-range values. -/

/-- Value of the constant `_PI` of minPcmStereo.cpp (line 30). -/
def codePi : ℝ := 3.14159265

/-- Value of `DAMPENING_FACTOR` of minPcmStereo.cpp (line 23). -/
def DAMPENING_FACTOR : ℝ := 0.70794578438413791080221494218931

/-- Truncation of a real toward zero, the conversion a C++ `static_cast`
from `double` to a narrower integer type performs on in-range values. -/
noncomputable def truncTZ (x : ℝ) : ℤ := if 0 ≤ x then ⌊x⌋ else ⌈x⌉

/-- Real-valued model of the sine synthesis loop of minPcmStereo.cpp
(lines 78-94): `angleIncrement = (1000/48000) * 2 * _PI`, and the stored
sample is `int16_t(INT16_MAX * (DAMPENING_FACTOR * sin(k*angleIncrement)))`. -/
noncomputable def synthSample (k : ℕ) : ℤ :=
  truncTZ (32767 * (DAMPENING_FACTOR * Real.sin ((k : ℝ) * (1000 / 48000 * 2 * codePi))))

/-- Hard-coded lookup table `monoSine1kHzLoopUp` of unnamed/part_000
(lines 128-131). -/
def monoSine1kHzLoopUp : List Int :=
  [0, 3027, 6003, 8877, 11598, 14121, 16402, 18403, 20089, 21431, 22406, 22998,
   23197, 22998, 22406, 21431, 20089, 18403, 16402, 14121, 11598, 8877, 6003, 3027,
   0, -3027, -6003, -8877, -11598, -14121, -16402, -18403, -20089, -21431, -22406,
   -22998, -23197, -22998, -22406, -21431, -20089, -18403, -16402, -14121, -11598,
   -8877, -6003, -3027]

/-- Formula claimed for the table entries: 16-bit truncation of
`32767 * 0.70794578438413791 * sin(2*pi * 1000/48000 * k)`. -/
noncomputable def c10_formula (k : ℕ) : ℤ :=
  truncTZ (32767 * ((0.70794578438413791 : ℝ) * Real.sin (2 * Real.pi * (1000 / 48000) * (k : ℝ))))

/-- Sample formula the spec claims for the synthesizer: round to nearest,
then clamp to the 16-bit signed range. -/
noncomputable def c4_specSample (k : ℕ) : ℤ :=
  max (-32768) (min 32767
    (round (32767 * (DAMPENING_FACTOR * Real.sin (2 * Real.pi * (1000 / 48000) * (k : ℝ))))))

/-- The spec formula with the rounding replaced by truncation toward zero,
everything else unchanged. -/
noncomputable def c4_amendedSample (k : ℕ) : ℤ :=
  max (-32768) (min 32767
    (truncTZ (32767 * (DAMPENING_FACTOR * Real.sin (2 * Real.pi * (1000 / 48000) * (k : ℝ))))))

/-- Abbreviation for the ideal sine values at multiples of pi/24. -/
noncomputable def sinN (k : ℕ) : ℝ := Real.sin ((k : ℝ) * (Real.pi / 24))

/-- Abbreviation for the ideal cosine values at multiples of pi/24. -/
noncomputable def cosN (k : ℕ) : ℝ := Real.cos ((k : ℝ) * (Real.pi / 24))

/-- Extracting rational bounds for a nonnegative quantity from bounds on
its square. -/
lemma sq_interval (v lo hi : ℝ) (hv : 0 ≤ v) (hlo : 0 ≤ lo)
    (h1 : lo ^ 2 ≤ v ^ 2) (h2 : v ^ 2 ≤ hi ^ 2) (hhi : 0 ≤ hi) :
    lo ≤ v ∧ v ≤ hi := by
  constructor <;> nlinarith

/-- Interval product bound for nonnegative intervals. -/
lemma mul_mem_interval (x y a b c d : ℝ) (hax : a ≤ x) (hxb : x ≤ b)
    (hcy : c ≤ y) (hyd : y ≤ d) (ha : 0 ≤ a) (hc : 0 ≤ c) :
    a * c ≤ x * y ∧ x * y ≤ b * d := by
  have hx : 0 ≤ x := le_trans ha hax
  have hy : 0 ≤ y := le_trans hc hcy
  exact ⟨mul_le_mul hax hcy hc hx, mul_le_mul hxb hyd hy (le_trans hx hxb)⟩

/-- Pinning a truncation at a nonnegative integer. -/
lemma truncTZ_eq_of_pos (x : ℝ) (n : ℤ) (h0 : 0 ≤ n)
    (h1 : (n : ℝ) ≤ x) (h2 : x < (n : ℝ) + 1) : truncTZ x = n := by
  unfold truncTZ
  have hx : (0 : ℝ) ≤ x := le_trans (by exact_mod_cast h0) h1
  rw [if_pos hx, Int.floor_eq_iff]
  exact ⟨h1, by push_cast; linarith⟩

/-- Pinning a truncation at a negative integer. -/
lemma truncTZ_eq_of_neg (x : ℝ) (n : ℤ) (hn : n < 0)
    (h1 : (n : ℝ) - 1 < x) (h2 : x ≤ (n : ℝ)) : truncTZ x = n := by
  unfold truncTZ
  have hn1 : (n : ℝ) ≤ -1 := by
    have h : n ≤ -1 := by omega
    exact_mod_cast h
  have hx : ¬ (0 : ℝ) ≤ x := by push_neg; linarith
  rw [if_neg hx, Int.ceil_eq_iff]
  exact ⟨by push_cast; linarith, h2⟩

/-- Truncation toward zero of a small value is zero. -/
lemma truncTZ_eq_zero (x : ℝ) (h1 : -1 < x) (h2 : x < 1) : truncTZ x = 0 := by
  unfold truncTZ
  split_ifs with h
  · rw [Int.floor_eq_iff]
    constructor <;> push_cast <;> linarith
  · rw [Int.ceil_eq_iff]
    constructor <;> push_cast <;> linarith

/-- The sine function is 1-Lipschitz. -/
lemma sin_diff_le (a b : ℝ) : |Real.sin a - Real.sin b| ≤ |a - b| := by
  rw [Real.sin_sub_sin]
  have h1 : |Real.sin ((a - b) / 2)| ≤ |(a - b) / 2| := Real.abs_sin_le_abs
  have h2 : |Real.cos ((a + b) / 2)| ≤ 1 := Real.abs_cos_le_one _
  have h3 : |(a - b) / 2| = |a - b| / 2 := by
    rw [abs_div]
    norm_num
  calc |2 * Real.sin ((a - b) / 2) * Real.cos ((a + b) / 2)|
      = 2 * |Real.sin ((a - b) / 2)| * |Real.cos ((a + b) / 2)| := by
        rw [abs_mul, abs_mul, abs_of_nonneg (by norm_num : (0 : ℝ) ≤ 2)]
    _ ≤ 2 * |(a - b) / 2| * 1 := by
        apply mul_le_mul (mul_le_mul_of_nonneg_left h1 (by norm_num)) h2
          (abs_nonneg _) (by positivity)
    _ = |a - b| := by rw [h3]; ring

/-- The angle the code uses differs from the ideal one by less than 1e-8
over the whole table. -/
lemma sin_code_close (k : ℕ) (hk : k ≤ 47) :
    |Real.sin ((k : ℝ) * (codePi / 24)) - sinN k| ≤ 1e-8 := by
  unfold sinN
  have h := sin_diff_le ((k : ℝ) * (codePi / 24)) ((k : ℝ) * (Real.pi / 24))
  have hk47 : (k : ℝ) ≤ 47 := by exact_mod_cast hk
  have hknn : (0 : ℝ) ≤ (k : ℝ) := Nat.cast_nonneg k
  have hgt := Real.pi_gt_d20
  have hlt := Real.pi_lt_d20
  have hdiff : |codePi - Real.pi| ≤ 3.6e-9 := by
    unfold codePi
    rw [abs_of_neg (by linarith)]
    linarith
  have habs : |(k : ℝ) * (codePi / 24) - (k : ℝ) * (Real.pi / 24)| ≤ 1e-8 := by
    rw [show (k : ℝ) * (codePi / 24) - (k : ℝ) * (Real.pi / 24)
        = (k : ℝ) * ((codePi - Real.pi) / 24) by ring]
    rw [abs_mul, abs_of_nonneg hknn, abs_div, abs_of_nonneg (by norm_num : (0:ℝ) ≤ 24)]
    calc (k : ℝ) * (|codePi - Real.pi| / 24) ≤ 47 * (3.6e-9 / 24) := by
          apply mul_le_mul hk47 (by linarith) (by positivity) (by norm_num)
      _ ≤ 1e-8 := by norm_num
  linarith

/-- Recurrence for the sine values. -/
lemma sinN_succ (k : ℕ) : sinN (k + 1) = sinN k * cosN 1 + cosN k * sinN 1 := by
  unfold sinN cosN
  push_cast
  rw [show ((k : ℝ) + 1) * (Real.pi / 24)
      = (k : ℝ) * (Real.pi / 24) + 1 * (Real.pi / 24) by ring]
  rw [Real.sin_add]

/-- Recurrence for the cosine values. -/
lemma cosN_succ (k : ℕ) : cosN (k + 1) = cosN k * cosN 1 - sinN k * sinN 1 := by
  unfold sinN cosN
  push_cast
  rw [show ((k : ℝ) + 1) * (Real.pi / 24)
      = (k : ℝ) * (Real.pi / 24) + 1 * (Real.pi / 24) by ring]
  rw [Real.cos_add]

lemma sqrt3_bounds : (1.7320508075688 : ℝ) ≤ √3 ∧ √3 ≤ 1.7320508075689 := by
  have h3 : (√3 : ℝ) ^ 2 = 3 := Real.sq_sqrt (by norm_num)
  exact sq_interval _ _ _ (Real.sqrt_nonneg 3) (by norm_num)
    (by rw [h3]; norm_num) (by rw [h3]; norm_num) (by norm_num)

lemma cosN_two_sq : cosN 2 ^ 2 = 1 / 2 + √3 / 2 / 2 := by
  unfold cosN
  have h := Real.cos_sq (((2 : ℕ) : ℝ) * (Real.pi / 24))
  rw [show 2 * (((2 : ℕ) : ℝ) * (Real.pi / 24)) = Real.pi / 6 by push_cast; ring,
    Real.cos_pi_div_six] at h
  exact h

lemma cosN_nonneg_of_le_twelve (k : ℕ) (hk : k ≤ 12) : 0 ≤ cosN k := by
  unfold cosN
  apply Real.cos_nonneg_of_mem_Icc
  have hpi := Real.pi_pos
  have hk12 : (k : ℝ) ≤ 12 := by exact_mod_cast hk
  have hknn : (0 : ℝ) ≤ (k : ℝ) := Nat.cast_nonneg k
  constructor
  · nlinarith
  · nlinarith

lemma sinN_nonneg_of_le_twelve (k : ℕ) (hk : k ≤ 12) : 0 ≤ sinN k := by
  unfold sinN
  apply Real.sin_nonneg_of_nonneg_of_le_pi
  · positivity
  · have hpi := Real.pi_pos
    have hk12 : (k : ℝ) ≤ 12 := by exact_mod_cast hk
    nlinarith

lemma cos_pi12_bounds : (0.9659258262890 : ℝ) ≤ cosN 2 ∧ cosN 2 ≤ 0.9659258262891 := by
  obtain ⟨h3lo, h3hi⟩ := sqrt3_bounds
  have hsq := cosN_two_sq
  exact sq_interval _ _ _ (cosN_nonneg_of_le_twelve 2 (by norm_num)) (by norm_num)
    (by rw [hsq]; norm_num; linarith) (by rw [hsq]; norm_num; linarith) (by norm_num)

lemma cosN_one_sq : cosN 1 ^ 2 = 1 / 2 + cosN 2 / 2 := by
  unfold cosN
  have h := Real.cos_sq (((1 : ℕ) : ℝ) * (Real.pi / 24))
  rw [show 2 * (((1 : ℕ) : ℝ) * (Real.pi / 24)) = ((2 : ℕ) : ℝ) * (Real.pi / 24)
      by push_cast; ring] at h
  exact h

lemma cosb_1 : (0.9914448613737 : ℝ) ≤ cosN 1 ∧ cosN 1 ≤ 0.9914448613739 := by
  obtain ⟨hlo, hhi⟩ := cos_pi12_bounds
  have hsq := cosN_one_sq
  exact sq_interval _ _ _ (cosN_nonneg_of_le_twelve 1 (by norm_num)) (by norm_num)
    (by rw [hsq]; norm_num; linarith) (by rw [hsq]; norm_num; linarith) (by norm_num)

lemma sinN_one_sq : sinN 1 ^ 2 = 1 - cosN 1 ^ 2 := by
  unfold sinN cosN
  exact Real.sin_sq _

lemma sinb_1 : (0.1305261922193 : ℝ) ≤ sinN 1 ∧ sinN 1 ≤ 0.1305261922209 := by
  obtain ⟨hlo, hhi⟩ := cosb_1
  have hsq := sinN_one_sq
  refine sq_interval _ _ _ (sinN_nonneg_of_le_twelve 1 (by norm_num)) (by norm_num)
    ?_ ?_ (by norm_num)
  · rw [hsq]
    norm_num
    nlinarith
  · rw [hsq]
    norm_num
    nlinarith

lemma sinb_2 : (0.2588190451010 : ℝ) ≤ sinN 2 ∧ sinN 2 ≤ 0.2588190451043 := by
  obtain ⟨hsa, hsb⟩ := sinb_1
  obtain ⟨hca, hcb⟩ := cosb_1
  obtain ⟨h1a, h1b⟩ := sinb_1
  obtain ⟨h1c, h1d⟩ := cosb_1
  have h := sinN_succ 1
  norm_num at h
  rw [h]
  obtain ⟨hp1, hp2⟩ := mul_mem_interval (sinN 1) (cosN 1) _ _ _ _ hsa hsb h1c h1d
    (by norm_num) (by norm_num)
  obtain ⟨hq1, hq2⟩ := mul_mem_interval (cosN 1) (sinN 1) _ _ _ _ hca hcb h1a h1b
    (by norm_num) (by norm_num)
  norm_num at hp1 hp2 hq1 hq2
  exact ⟨by linarith, by linarith⟩

lemma cosb_2 : (0.9659258262886 : ℝ) ≤ cosN 2 ∧ cosN 2 ≤ 0.9659258262895 := by
  obtain ⟨hsa, hsb⟩ := sinb_1
  obtain ⟨hca, hcb⟩ := cosb_1
  obtain ⟨h1a, h1b⟩ := sinb_1
  obtain ⟨h1c, h1d⟩ := cosb_1
  have h := cosN_succ 1
  norm_num at h
  rw [h]
  obtain ⟨hp1, hp2⟩ := mul_mem_interval (cosN 1) (cosN 1) _ _ _ _ hca hcb h1c h1d
    (by norm_num) (by norm_num)
  obtain ⟨hq1, hq2⟩ := mul_mem_interval (sinN 1) (sinN 1) _ _ _ _ hsa hsb h1a h1b
    (by norm_num) (by norm_num)
  norm_num at hp1 hp2 hq1 hq2
  exact ⟨by linarith, by linarith⟩

lemma sinb_3 : (0.3826834323627 : ℝ) ≤ sinN 3 ∧ sinN 3 ≤ 0.3826834323678 := by
  obtain ⟨hsa, hsb⟩ := sinb_2
  obtain ⟨hca, hcb⟩ := cosb_2
  obtain ⟨h1a, h1b⟩ := sinb_1
  obtain ⟨h1c, h1d⟩ := cosb_1
  have h := sinN_succ 2
  norm_num at h
  rw [h]
  obtain ⟨hp1, hp2⟩ := mul_mem_interval (sinN 2) (cosN 1) _ _ _ _ hsa hsb h1c h1d
    (by norm_num) (by norm_num)
  obtain ⟨hq1, hq2⟩ := mul_mem_interval (cosN 2) (sinN 1) _ _ _ _ hca hcb h1a h1b
    (by norm_num) (by norm_num)
  norm_num at hp1 hp2 hq1 hq2
  exact ⟨by linarith, by linarith⟩

lemma cosb_3 : (0.9238795325102 : ℝ) ≤ cosN 3 ∧ cosN 3 ≤ 0.9238795325122 := by
  obtain ⟨hsa, hsb⟩ := sinb_2
  obtain ⟨hca, hcb⟩ := cosb_2
  obtain ⟨h1a, h1b⟩ := sinb_1
  obtain ⟨h1c, h1d⟩ := cosb_1
  have h := cosN_succ 2
  norm_num at h
  rw [h]
  obtain ⟨hp1, hp2⟩ := mul_mem_interval (cosN 2) (cosN 1) _ _ _ _ hca hcb h1c h1d
    (by norm_num) (by norm_num)
  obtain ⟨hq1, hq2⟩ := mul_mem_interval (sinN 2) (sinN 1) _ _ _ _ hsa hsb h1a h1b
    (by norm_num) (by norm_num)
  norm_num at hp1 hp2 hq1 hq2
  exact ⟨by linarith, by linarith⟩

lemma sinb_4 : (0.4999999999967 : ℝ) ≤ sinN 4 ∧ sinN 4 ≤ 0.5000000000037 := by
  obtain ⟨hsa, hsb⟩ := sinb_3
  obtain ⟨hca, hcb⟩ := cosb_3
  obtain ⟨h1a, h1b⟩ := sinb_1
  obtain ⟨h1c, h1d⟩ := cosb_1
  have h := sinN_succ 3
  norm_num at h
  rw [h]
  obtain ⟨hp1, hp2⟩ := mul_mem_interval (sinN 3) (cosN 1) _ _ _ _ hsa hsb h1c h1d
    (by norm_num) (by norm_num)
  obtain ⟨hq1, hq2⟩ := mul_mem_interval (cosN 3) (sinN 1) _ _ _ _ hca hcb h1a h1b
    (by norm_num) (by norm_num)
  norm_num at hp1 hp2 hq1 hq2
  exact ⟨by linarith, by linarith⟩

lemma cosb_4 : (0.8660254037825 : ℝ) ≤ cosN 4 ∧ cosN 4 ≤ 0.8660254037861 := by
  obtain ⟨hsa, hsb⟩ := sinb_3
  obtain ⟨hca, hcb⟩ := cosb_3
  obtain ⟨h1a, h1b⟩ := sinb_1
  obtain ⟨h1c, h1d⟩ := cosb_1
  have h := cosN_succ 3
  norm_num at h
  rw [h]
  obtain ⟨hp1, hp2⟩ := mul_mem_interval (cosN 3) (cosN 1) _ _ _ _ hca hcb h1c h1d
    (by norm_num) (by norm_num)
  obtain ⟨hq1, hq2⟩ := mul_mem_interval (sinN 3) (sinN 1) _ _ _ _ hsa hsb h1a h1b
    (by norm_num) (by norm_num)
  norm_num at hp1 hp2 hq1 hq2
  exact ⟨by linarith, by linarith⟩

lemma sinb_5 : (0.6087614290044 : ℝ) ≤ sinN 5 ∧ sinN 5 ≤ 0.6087614290134 := by
  obtain ⟨hsa, hsb⟩ := sinb_4
  obtain ⟨hca, hcb⟩ := cosb_4
  obtain ⟨h1a, h1b⟩ := sinb_1
  obtain ⟨h1c, h1d⟩ := cosb_1
  have h := sinN_succ 4
  norm_num at h
  rw [h]
  obtain ⟨hp1, hp2⟩ := mul_mem_interval (sinN 4) (cosN 1) _ _ _ _ hsa hsb h1c h1d
    (by norm_num) (by norm_num)
  obtain ⟨hq1, hq2⟩ := mul_mem_interval (cosN 4) (sinN 1) _ _ _ _ hca hcb h1a h1b
    (by norm_num) (by norm_num)
  norm_num at hp1 hp2 hq1 hq2
  exact ⟨by linarith, by linarith⟩

lemma cosb_5 : (0.7933533402883 : ℝ) ≤ cosN 5 ∧ cosN 5 ≤ 0.7933533402938 := by
  obtain ⟨hsa, hsb⟩ := sinb_4
  obtain ⟨hca, hcb⟩ := cosb_4
  obtain ⟨h1a, h1b⟩ := sinb_1
  obtain ⟨h1c, h1d⟩ := cosb_1
  have h := cosN_succ 4
  norm_num at h
  rw [h]
  obtain ⟨hp1, hp2⟩ := mul_mem_interval (cosN 4) (cosN 1) _ _ _ _ hca hcb h1c h1d
    (by norm_num) (by norm_num)
  obtain ⟨hq1, hq2⟩ := mul_mem_interval (sinN 4) (sinN 1) _ _ _ _ hsa hsb h1a h1b
    (by norm_num) (by norm_num)
  norm_num at hp1 hp2 hq1 hq2
  exact ⟨by linarith, by linarith⟩

lemma sinb_6 : (0.7071067811812 : ℝ) ≤ sinN 6 ∧ sinN 6 ≤ 0.7071067811923 := by
  obtain ⟨hsa, hsb⟩ := sinb_5
  obtain ⟨hca, hcb⟩ := cosb_5
  obtain ⟨h1a, h1b⟩ := sinb_1
  obtain ⟨h1c, h1d⟩ := cosb_1
  have h := sinN_succ 5
  norm_num at h
  rw [h]
  obtain ⟨hp1, hp2⟩ := mul_mem_interval (sinN 5) (cosN 1) _ _ _ _ hsa hsb h1c h1d
    (by norm_num) (by norm_num)
  obtain ⟨hq1, hq2⟩ := mul_mem_interval (cosN 5) (sinN 1) _ _ _ _ hca hcb h1a h1b
    (by norm_num) (by norm_num)
  norm_num at hp1 hp2 hq1 hq2
  exact ⟨by linarith, by linarith⟩

lemma cosb_6 : (0.7071067811824 : ℝ) ≤ cosN 6 ∧ cosN 6 ≤ 0.7071067811902 := by
  obtain ⟨hsa, hsb⟩ := sinb_5
  obtain ⟨hca, hcb⟩ := cosb_5
  obtain ⟨h1a, h1b⟩ := sinb_1
  obtain ⟨h1c, h1d⟩ := cosb_1
  have h := cosN_succ 5
  norm_num at h
  rw [h]
  obtain ⟨hp1, hp2⟩ := mul_mem_interval (cosN 5) (cosN 1) _ _ _ _ hca hcb h1c h1d
    (by norm_num) (by norm_num)
  obtain ⟨hq1, hq2⟩ := mul_mem_interval (sinN 5) (sinN 1) _ _ _ _ hsa hsb h1a h1b
    (by norm_num) (by norm_num)
  norm_num at hp1 hp2 hq1 hq2
  exact ⟨by linarith, by linarith⟩

lemma sinb_7 : (0.7933533402847 : ℝ) ≤ sinN 7 ∧ sinN 7 ≤ 0.7933533402981 := by
  obtain ⟨hsa, hsb⟩ := sinb_6
  obtain ⟨hca, hcb⟩ := cosb_6
  obtain ⟨h1a, h1b⟩ := sinb_1
  obtain ⟨h1c, h1d⟩ := cosb_1
  have h := sinN_succ 6
  norm_num at h
  rw [h]
  obtain ⟨hp1, hp2⟩ := mul_mem_interval (sinN 6) (cosN 1) _ _ _ _ hsa hsb h1c h1d
    (by norm_num) (by norm_num)
  obtain ⟨hq1, hq2⟩ := mul_mem_interval (cosN 6) (sinN 1) _ _ _ _ hca hcb h1a h1b
    (by norm_num) (by norm_num)
  norm_num at hp1 hp2 hq1 hq2
  exact ⟨by linarith, by linarith⟩

lemma cosb_7 : (0.6087614290031 : ℝ) ≤ cosN 7 ∧ cosN 7 ≤ 0.6087614290137 := by
  obtain ⟨hsa, hsb⟩ := sinb_6
  obtain ⟨hca, hcb⟩ := cosb_6
  obtain ⟨h1a, h1b⟩ := sinb_1
  obtain ⟨h1c, h1d⟩ := cosb_1
  have h := cosN_succ 6
  norm_num at h
  rw [h]
  obtain ⟨hp1, hp2⟩ := mul_mem_interval (cosN 6) (cosN 1) _ _ _ _ hca hcb h1c h1d
    (by norm_num) (by norm_num)
  obtain ⟨hq1, hq2⟩ := mul_mem_interval (sinN 6) (sinN 1) _ _ _ _ hsa hsb h1a h1b
    (by norm_num) (by norm_num)
  norm_num at hp1 hp2 hq1 hq2
  exact ⟨by linarith, by linarith⟩

lemma sinb_8 : (0.8660254037766 : ℝ) ≤ sinN 8 ∧ sinN 8 ≤ 0.8660254037925 := by
  obtain ⟨hsa, hsb⟩ := sinb_7
  obtain ⟨hca, hcb⟩ := cosb_7
  obtain ⟨h1a, h1b⟩ := sinb_1
  obtain ⟨h1c, h1d⟩ := cosb_1
  have h := sinN_succ 7
  norm_num at h
  rw [h]
  obtain ⟨hp1, hp2⟩ := mul_mem_interval (sinN 7) (cosN 1) _ _ _ _ hsa hsb h1c h1d
    (by norm_num) (by norm_num)
  obtain ⟨hq1, hq2⟩ := mul_mem_interval (cosN 7) (sinN 1) _ _ _ _ hca hcb h1a h1b
    (by norm_num) (by norm_num)
  norm_num at hp1 hp2 hq1 hq2
  exact ⟨by linarith, by linarith⟩

lemma cosb_8 : (0.4999999999927 : ℝ) ≤ cosN 8 ∧ cosN 8 ≤ 0.5000000000065 := by
  obtain ⟨hsa, hsb⟩ := sinb_7
  obtain ⟨hca, hcb⟩ := cosb_7
  obtain ⟨h1a, h1b⟩ := sinb_1
  obtain ⟨h1c, h1d⟩ := cosb_1
  have h := cosN_succ 7
  norm_num at h
  rw [h]
  obtain ⟨hp1, hp2⟩ := mul_mem_interval (cosN 7) (cosN 1) _ _ _ _ hca hcb h1c h1d
    (by norm_num) (by norm_num)
  obtain ⟨hq1, hq2⟩ := mul_mem_interval (sinN 7) (sinN 1) _ _ _ _ hsa hsb h1a h1b
    (by norm_num) (by norm_num)
  norm_num at hp1 hp2 hq1 hq2
  exact ⟨by linarith, by linarith⟩

lemma sinb_9 : (0.9238795325020 : ℝ) ≤ sinN 9 ∧ sinN 9 ≤ 0.9238795325207 := by
  obtain ⟨hsa, hsb⟩ := sinb_8
  obtain ⟨hca, hcb⟩ := cosb_8
  obtain ⟨h1a, h1b⟩ := sinb_1
  obtain ⟨h1c, h1d⟩ := cosb_1
  have h := sinN_succ 8
  norm_num at h
  rw [h]
  obtain ⟨hp1, hp2⟩ := mul_mem_interval (sinN 8) (cosN 1) _ _ _ _ hsa hsb h1c h1d
    (by norm_num) (by norm_num)
  obtain ⟨hq1, hq2⟩ := mul_mem_interval (cosN 8) (sinN 1) _ _ _ _ hca hcb h1a h1b
    (by norm_num) (by norm_num)
  norm_num at hp1 hp2 hq1 hq2
  exact ⟨by linarith, by linarith⟩

lemma cosb_9 : (0.3826834323560 : ℝ) ≤ cosN 9 ∧ cosN 9 ≤ 0.3826834323733 := by
  obtain ⟨hsa, hsb⟩ := sinb_8
  obtain ⟨hca, hcb⟩ := cosb_8
  obtain ⟨h1a, h1b⟩ := sinb_1
  obtain ⟨h1c, h1d⟩ := cosb_1
  have h := cosN_succ 8
  norm_num at h
  rw [h]
  obtain ⟨hp1, hp2⟩ := mul_mem_interval (cosN 8) (cosN 1) _ _ _ _ hca hcb h1c h1d
    (by norm_num) (by norm_num)
  obtain ⟨hq1, hq2⟩ := mul_mem_interval (sinN 8) (sinN 1) _ _ _ _ hsa hsb h1a h1b
    (by norm_num) (by norm_num)
  norm_num at hp1 hp2 hq1 hq2
  exact ⟨by linarith, by linarith⟩

lemma sinb_10 : (0.9659258262782 : ℝ) ≤ sinN 10 ∧ sinN 10 ≤ 0.9659258262999 := by
  obtain ⟨hsa, hsb⟩ := sinb_9
  obtain ⟨hca, hcb⟩ := cosb_9
  obtain ⟨h1a, h1b⟩ := sinb_1
  obtain ⟨h1c, h1d⟩ := cosb_1
  have h := sinN_succ 9
  norm_num at h
  rw [h]
  obtain ⟨hp1, hp2⟩ := mul_mem_interval (sinN 9) (cosN 1) _ _ _ _ hsa hsb h1c h1d
    (by norm_num) (by norm_num)
  obtain ⟨hq1, hq2⟩ := mul_mem_interval (cosN 9) (sinN 1) _ _ _ _ hca hcb h1a h1b
    (by norm_num) (by norm_num)
  norm_num at hp1 hp2 hq1 hq2
  exact ⟨by linarith, by linarith⟩

lemma cosb_10 : (0.2588190450914 : ℝ) ≤ cosN 10 ∧ cosN 10 ≤ 0.2588190451127 := by
  obtain ⟨hsa, hsb⟩ := sinb_9
  obtain ⟨hca, hcb⟩ := cosb_9
  obtain ⟨h1a, h1b⟩ := sinb_1
  obtain ⟨h1c, h1d⟩ := cosb_1
  have h := cosN_succ 9
  norm_num at h
  rw [h]
  obtain ⟨hp1, hp2⟩ := mul_mem_interval (cosN 9) (cosN 1) _ _ _ _ hca hcb h1c h1d
    (by norm_num) (by norm_num)
  obtain ⟨hq1, hq2⟩ := mul_mem_interval (sinN 9) (sinN 1) _ _ _ _ hsa hsb h1a h1b
    (by norm_num) (by norm_num)
  norm_num at hp1 hp2 hq1 hq2
  exact ⟨by linarith, by linarith⟩

lemma sinb_11 : (0.9914448613612 : ℝ) ≤ sinN 11 ∧ sinN 11 ≤ 0.9914448613862 := by
  obtain ⟨hsa, hsb⟩ := sinb_10
  obtain ⟨hca, hcb⟩ := cosb_10
  obtain ⟨h1a, h1b⟩ := sinb_1
  obtain ⟨h1c, h1d⟩ := cosb_1
  have h := sinN_succ 10
  norm_num at h
  rw [h]
  obtain ⟨hp1, hp2⟩ := mul_mem_interval (sinN 10) (cosN 1) _ _ _ _ hsa hsb h1c h1d
    (by norm_num) (by norm_num)
  obtain ⟨hq1, hq2⟩ := mul_mem_interval (cosN 10) (sinN 1) _ _ _ _ hca hcb h1a h1b
    (by norm_num) (by norm_num)
  norm_num at hp1 hp2 hq1 hq2
  exact ⟨by linarith, by linarith⟩

lemma sinNb_0 : (0 : ℝ) ≤ sinN 0 ∧ sinN 0 ≤ 0 := by
  unfold sinN
  push_cast
  rw [zero_mul, Real.sin_zero]
  exact ⟨le_refl 0, le_refl 0⟩

lemma sinNb_1 : (0.1305261922193 : ℝ) ≤ sinN 1 ∧ sinN 1 ≤ 0.1305261922209 := sinb_1

lemma sinNb_2 : (0.2588190451010 : ℝ) ≤ sinN 2 ∧ sinN 2 ≤ 0.2588190451043 := sinb_2

lemma sinNb_3 : (0.3826834323627 : ℝ) ≤ sinN 3 ∧ sinN 3 ≤ 0.3826834323678 := sinb_3

lemma sinNb_4 : (0.4999999999967 : ℝ) ≤ sinN 4 ∧ sinN 4 ≤ 0.5000000000037 := sinb_4

lemma sinNb_5 : (0.6087614290044 : ℝ) ≤ sinN 5 ∧ sinN 5 ≤ 0.6087614290134 := sinb_5

lemma sinNb_6 : (0.7071067811812 : ℝ) ≤ sinN 6 ∧ sinN 6 ≤ 0.7071067811923 := sinb_6

lemma sinNb_7 : (0.7933533402847 : ℝ) ≤ sinN 7 ∧ sinN 7 ≤ 0.7933533402981 := sinb_7

lemma sinNb_8 : (0.8660254037766 : ℝ) ≤ sinN 8 ∧ sinN 8 ≤ 0.8660254037925 := sinb_8

lemma sinNb_9 : (0.9238795325020 : ℝ) ≤ sinN 9 ∧ sinN 9 ≤ 0.9238795325207 := sinb_9

lemma sinNb_10 : (0.9659258262782 : ℝ) ≤ sinN 10 ∧ sinN 10 ≤ 0.9659258262999 := sinb_10

lemma sinNb_11 : (0.9914448613612 : ℝ) ≤ sinN 11 ∧ sinN 11 ≤ 0.9914448613862 := sinb_11

lemma sinNb_12 : (1 : ℝ) ≤ sinN 12 ∧ sinN 12 ≤ 1 := by
  unfold sinN
  rw [show ((12:ℕ):ℝ) * (Real.pi / 24) = Real.pi / 2 by push_cast; ring,
    Real.sin_pi_div_two]
  exact ⟨le_refl 1, le_refl 1⟩

lemma sinNb_13 : (0.9914448613612 : ℝ) ≤ sinN 13 ∧ sinN 13 ≤ 0.9914448613862 := by
  obtain ⟨ha, hb⟩ := sinb_11
  have h : sinN 13 = sinN 11 := by
    unfold sinN
    rw [show ((13:ℕ):ℝ) * (Real.pi / 24) = Real.pi - ((11:ℕ):ℝ) * (Real.pi / 24) by
      push_cast; ring, Real.sin_pi_sub]
  rw [h]
  exact ⟨ha, hb⟩

lemma sinNb_14 : (0.9659258262782 : ℝ) ≤ sinN 14 ∧ sinN 14 ≤ 0.9659258262999 := by
  obtain ⟨ha, hb⟩ := sinb_10
  have h : sinN 14 = sinN 10 := by
    unfold sinN
    rw [show ((14:ℕ):ℝ) * (Real.pi / 24) = Real.pi - ((10:ℕ):ℝ) * (Real.pi / 24) by
      push_cast; ring, Real.sin_pi_sub]
  rw [h]
  exact ⟨ha, hb⟩

lemma sinNb_15 : (0.9238795325020 : ℝ) ≤ sinN 15 ∧ sinN 15 ≤ 0.9238795325207 := by
  obtain ⟨ha, hb⟩ := sinb_9
  have h : sinN 15 = sinN 9 := by
    unfold sinN
    rw [show ((15:ℕ):ℝ) * (Real.pi / 24) = Real.pi - ((9:ℕ):ℝ) * (Real.pi / 24) by
      push_cast; ring, Real.sin_pi_sub]
  rw [h]
  exact ⟨ha, hb⟩

lemma sinNb_16 : (0.8660254037766 : ℝ) ≤ sinN 16 ∧ sinN 16 ≤ 0.8660254037925 := by
  obtain ⟨ha, hb⟩ := sinb_8
  have h : sinN 16 = sinN 8 := by
    unfold sinN
    rw [show ((16:ℕ):ℝ) * (Real.pi / 24) = Real.pi - ((8:ℕ):ℝ) * (Real.pi / 24) by
      push_cast; ring, Real.sin_pi_sub]
  rw [h]
  exact ⟨ha, hb⟩

lemma sinNb_17 : (0.7933533402847 : ℝ) ≤ sinN 17 ∧ sinN 17 ≤ 0.7933533402981 := by
  obtain ⟨ha, hb⟩ := sinb_7
  have h : sinN 17 = sinN 7 := by
    unfold sinN
    rw [show ((17:ℕ):ℝ) * (Real.pi / 24) = Real.pi - ((7:ℕ):ℝ) * (Real.pi / 24) by
      push_cast; ring, Real.sin_pi_sub]
  rw [h]
  exact ⟨ha, hb⟩

lemma sinNb_18 : (0.7071067811812 : ℝ) ≤ sinN 18 ∧ sinN 18 ≤ 0.7071067811923 := by
  obtain ⟨ha, hb⟩ := sinb_6
  have h : sinN 18 = sinN 6 := by
    unfold sinN
    rw [show ((18:ℕ):ℝ) * (Real.pi / 24) = Real.pi - ((6:ℕ):ℝ) * (Real.pi / 24) by
      push_cast; ring, Real.sin_pi_sub]
  rw [h]
  exact ⟨ha, hb⟩

lemma sinNb_19 : (0.6087614290044 : ℝ) ≤ sinN 19 ∧ sinN 19 ≤ 0.6087614290134 := by
  obtain ⟨ha, hb⟩ := sinb_5
  have h : sinN 19 = sinN 5 := by
    unfold sinN
    rw [show ((19:ℕ):ℝ) * (Real.pi / 24) = Real.pi - ((5:ℕ):ℝ) * (Real.pi / 24) by
      push_cast; ring, Real.sin_pi_sub]
  rw [h]
  exact ⟨ha, hb⟩

lemma sinNb_20 : (0.4999999999967 : ℝ) ≤ sinN 20 ∧ sinN 20 ≤ 0.5000000000037 := by
  obtain ⟨ha, hb⟩ := sinb_4
  have h : sinN 20 = sinN 4 := by
    unfold sinN
    rw [show ((20:ℕ):ℝ) * (Real.pi / 24) = Real.pi - ((4:ℕ):ℝ) * (Real.pi / 24) by
      push_cast; ring, Real.sin_pi_sub]
  rw [h]
  exact ⟨ha, hb⟩

lemma sinNb_21 : (0.3826834323627 : ℝ) ≤ sinN 21 ∧ sinN 21 ≤ 0.3826834323678 := by
  obtain ⟨ha, hb⟩ := sinb_3
  have h : sinN 21 = sinN 3 := by
    unfold sinN
    rw [show ((21:ℕ):ℝ) * (Real.pi / 24) = Real.pi - ((3:ℕ):ℝ) * (Real.pi / 24) by
      push_cast; ring, Real.sin_pi_sub]
  rw [h]
  exact ⟨ha, hb⟩

lemma sinNb_22 : (0.2588190451010 : ℝ) ≤ sinN 22 ∧ sinN 22 ≤ 0.2588190451043 := by
  obtain ⟨ha, hb⟩ := sinb_2
  have h : sinN 22 = sinN 2 := by
    unfold sinN
    rw [show ((22:ℕ):ℝ) * (Real.pi / 24) = Real.pi - ((2:ℕ):ℝ) * (Real.pi / 24) by
      push_cast; ring, Real.sin_pi_sub]
  rw [h]
  exact ⟨ha, hb⟩

lemma sinNb_23 : (0.1305261922193 : ℝ) ≤ sinN 23 ∧ sinN 23 ≤ 0.1305261922209 := by
  obtain ⟨ha, hb⟩ := sinb_1
  have h : sinN 23 = sinN 1 := by
    unfold sinN
    rw [show ((23:ℕ):ℝ) * (Real.pi / 24) = Real.pi - ((1:ℕ):ℝ) * (Real.pi / 24) by
      push_cast; ring, Real.sin_pi_sub]
  rw [h]
  exact ⟨ha, hb⟩

lemma sinNb_24 : (0 : ℝ) ≤ sinN 24 ∧ sinN 24 ≤ 0 := by
  unfold sinN
  rw [show ((24:ℕ):ℝ) * (Real.pi / 24) = Real.pi by push_cast; ring, Real.sin_pi]
  exact ⟨le_refl 0, le_refl 0⟩

lemma sinNb_25 : (-0.1305261922209 : ℝ) ≤ sinN 25 ∧ sinN 25 ≤ -0.1305261922193 := by
  obtain ⟨ha, hb⟩ := sinb_1
  have h : sinN 25 = -sinN 1 := by
    unfold sinN
    rw [show ((25:ℕ):ℝ) * (Real.pi / 24) = ((1:ℕ):ℝ) * (Real.pi / 24) + Real.pi by
      push_cast; ring, Real.sin_add_pi]
  rw [h]
  constructor <;> linarith

lemma sinNb_26 : (-0.2588190451043 : ℝ) ≤ sinN 26 ∧ sinN 26 ≤ -0.2588190451010 := by
  obtain ⟨ha, hb⟩ := sinb_2
  have h : sinN 26 = -sinN 2 := by
    unfold sinN
    rw [show ((26:ℕ):ℝ) * (Real.pi / 24) = ((2:ℕ):ℝ) * (Real.pi / 24) + Real.pi by
      push_cast; ring, Real.sin_add_pi]
  rw [h]
  constructor <;> linarith

lemma sinNb_27 : (-0.3826834323678 : ℝ) ≤ sinN 27 ∧ sinN 27 ≤ -0.3826834323627 := by
  obtain ⟨ha, hb⟩ := sinb_3
  have h : sinN 27 = -sinN 3 := by
    unfold sinN
    rw [show ((27:ℕ):ℝ) * (Real.pi / 24) = ((3:ℕ):ℝ) * (Real.pi / 24) + Real.pi by
      push_cast; ring, Real.sin_add_pi]
  rw [h]
  constructor <;> linarith

lemma sinNb_28 : (-0.5000000000037 : ℝ) ≤ sinN 28 ∧ sinN 28 ≤ -0.4999999999967 := by
  obtain ⟨ha, hb⟩ := sinb_4
  have h : sinN 28 = -sinN 4 := by
    unfold sinN
    rw [show ((28:ℕ):ℝ) * (Real.pi / 24) = ((4:ℕ):ℝ) * (Real.pi / 24) + Real.pi by
      push_cast; ring, Real.sin_add_pi]
  rw [h]
  constructor <;> linarith

lemma sinNb_29 : (-0.6087614290134 : ℝ) ≤ sinN 29 ∧ sinN 29 ≤ -0.6087614290044 := by
  obtain ⟨ha, hb⟩ := sinb_5
  have h : sinN 29 = -sinN 5 := by
    unfold sinN
    rw [show ((29:ℕ):ℝ) * (Real.pi / 24) = ((5:ℕ):ℝ) * (Real.pi / 24) + Real.pi by
      push_cast; ring, Real.sin_add_pi]
  rw [h]
  constructor <;> linarith

lemma sinNb_30 : (-0.7071067811923 : ℝ) ≤ sinN 30 ∧ sinN 30 ≤ -0.7071067811812 := by
  obtain ⟨ha, hb⟩ := sinb_6
  have h : sinN 30 = -sinN 6 := by
    unfold sinN
    rw [show ((30:ℕ):ℝ) * (Real.pi / 24) = ((6:ℕ):ℝ) * (Real.pi / 24) + Real.pi by
      push_cast; ring, Real.sin_add_pi]
  rw [h]
  constructor <;> linarith

lemma sinNb_31 : (-0.7933533402981 : ℝ) ≤ sinN 31 ∧ sinN 31 ≤ -0.7933533402847 := by
  obtain ⟨ha, hb⟩ := sinb_7
  have h : sinN 31 = -sinN 7 := by
    unfold sinN
    rw [show ((31:ℕ):ℝ) * (Real.pi / 24) = ((7:ℕ):ℝ) * (Real.pi / 24) + Real.pi by
      push_cast; ring, Real.sin_add_pi]
  rw [h]
  constructor <;> linarith

lemma sinNb_32 : (-0.8660254037925 : ℝ) ≤ sinN 32 ∧ sinN 32 ≤ -0.8660254037766 := by
  obtain ⟨ha, hb⟩ := sinb_8
  have h : sinN 32 = -sinN 8 := by
    unfold sinN
    rw [show ((32:ℕ):ℝ) * (Real.pi / 24) = ((8:ℕ):ℝ) * (Real.pi / 24) + Real.pi by
      push_cast; ring, Real.sin_add_pi]
  rw [h]
  constructor <;> linarith

lemma sinNb_33 : (-0.9238795325207 : ℝ) ≤ sinN 33 ∧ sinN 33 ≤ -0.9238795325020 := by
  obtain ⟨ha, hb⟩ := sinb_9
  have h : sinN 33 = -sinN 9 := by
    unfold sinN
    rw [show ((33:ℕ):ℝ) * (Real.pi / 24) = ((9:ℕ):ℝ) * (Real.pi / 24) + Real.pi by
      push_cast; ring, Real.sin_add_pi]
  rw [h]
  constructor <;> linarith

lemma sinNb_34 : (-0.9659258262999 : ℝ) ≤ sinN 34 ∧ sinN 34 ≤ -0.9659258262782 := by
  obtain ⟨ha, hb⟩ := sinb_10
  have h : sinN 34 = -sinN 10 := by
    unfold sinN
    rw [show ((34:ℕ):ℝ) * (Real.pi / 24) = ((10:ℕ):ℝ) * (Real.pi / 24) + Real.pi by
      push_cast; ring, Real.sin_add_pi]
  rw [h]
  constructor <;> linarith

lemma sinNb_35 : (-0.9914448613862 : ℝ) ≤ sinN 35 ∧ sinN 35 ≤ -0.9914448613612 := by
  obtain ⟨ha, hb⟩ := sinb_11
  have h : sinN 35 = -sinN 11 := by
    unfold sinN
    rw [show ((35:ℕ):ℝ) * (Real.pi / 24) = ((11:ℕ):ℝ) * (Real.pi / 24) + Real.pi by
      push_cast; ring, Real.sin_add_pi]
  rw [h]
  constructor <;> linarith

lemma sinNb_36 : (-1 : ℝ) ≤ sinN 36 ∧ sinN 36 ≤ -1 := by
  have h : sinN 36 = -1 := by
    unfold sinN
    rw [show ((36:ℕ):ℝ) * (Real.pi / 24) = Real.pi / 2 + Real.pi by push_cast; ring,
      Real.sin_add_pi, Real.sin_pi_div_two]
  rw [h]
  exact ⟨le_refl _, le_refl _⟩

lemma sinNb_37 : (-0.9914448613862 : ℝ) ≤ sinN 37 ∧ sinN 37 ≤ -0.9914448613612 := by
  obtain ⟨ha, hb⟩ := sinb_11
  have h : sinN 37 = -sinN 11 := by
    unfold sinN
    rw [show ((37:ℕ):ℝ) * (Real.pi / 24) = (Real.pi - ((11:ℕ):ℝ) * (Real.pi / 24)) + Real.pi by
      push_cast; ring, Real.sin_add_pi, Real.sin_pi_sub]
  rw [h]
  constructor <;> linarith

lemma sinNb_38 : (-0.9659258262999 : ℝ) ≤ sinN 38 ∧ sinN 38 ≤ -0.9659258262782 := by
  obtain ⟨ha, hb⟩ := sinb_10
  have h : sinN 38 = -sinN 10 := by
    unfold sinN
    rw [show ((38:ℕ):ℝ) * (Real.pi / 24) = (Real.pi - ((10:ℕ):ℝ) * (Real.pi / 24)) + Real.pi by
      push_cast; ring, Real.sin_add_pi, Real.sin_pi_sub]
  rw [h]
  constructor <;> linarith

lemma sinNb_39 : (-0.9238795325207 : ℝ) ≤ sinN 39 ∧ sinN 39 ≤ -0.9238795325020 := by
  obtain ⟨ha, hb⟩ := sinb_9
  have h : sinN 39 = -sinN 9 := by
    unfold sinN
    rw [show ((39:ℕ):ℝ) * (Real.pi / 24) = (Real.pi - ((9:ℕ):ℝ) * (Real.pi / 24)) + Real.pi by
      push_cast; ring, Real.sin_add_pi, Real.sin_pi_sub]
  rw [h]
  constructor <;> linarith

lemma sinNb_40 : (-0.8660254037925 : ℝ) ≤ sinN 40 ∧ sinN 40 ≤ -0.8660254037766 := by
  obtain ⟨ha, hb⟩ := sinb_8
  have h : sinN 40 = -sinN 8 := by
    unfold sinN
    rw [show ((40:ℕ):ℝ) * (Real.pi / 24) = (Real.pi - ((8:ℕ):ℝ) * (Real.pi / 24)) + Real.pi by
      push_cast; ring, Real.sin_add_pi, Real.sin_pi_sub]
  rw [h]
  constructor <;> linarith

lemma sinNb_41 : (-0.7933533402981 : ℝ) ≤ sinN 41 ∧ sinN 41 ≤ -0.7933533402847 := by
  obtain ⟨ha, hb⟩ := sinb_7
  have h : sinN 41 = -sinN 7 := by
    unfold sinN
    rw [show ((41:ℕ):ℝ) * (Real.pi / 24) = (Real.pi - ((7:ℕ):ℝ) * (Real.pi / 24)) + Real.pi by
      push_cast; ring, Real.sin_add_pi, Real.sin_pi_sub]
  rw [h]
  constructor <;> linarith

lemma sinNb_42 : (-0.7071067811923 : ℝ) ≤ sinN 42 ∧ sinN 42 ≤ -0.7071067811812 := by
  obtain ⟨ha, hb⟩ := sinb_6
  have h : sinN 42 = -sinN 6 := by
    unfold sinN
    rw [show ((42:ℕ):ℝ) * (Real.pi / 24) = (Real.pi - ((6:ℕ):ℝ) * (Real.pi / 24)) + Real.pi by
      push_cast; ring, Real.sin_add_pi, Real.sin_pi_sub]
  rw [h]
  constructor <;> linarith

lemma sinNb_43 : (-0.6087614290134 : ℝ) ≤ sinN 43 ∧ sinN 43 ≤ -0.6087614290044 := by
  obtain ⟨ha, hb⟩ := sinb_5
  have h : sinN 43 = -sinN 5 := by
    unfold sinN
    rw [show ((43:ℕ):ℝ) * (Real.pi / 24) = (Real.pi - ((5:ℕ):ℝ) * (Real.pi / 24)) + Real.pi by
      push_cast; ring, Real.sin_add_pi, Real.sin_pi_sub]
  rw [h]
  constructor <;> linarith

lemma sinNb_44 : (-0.5000000000037 : ℝ) ≤ sinN 44 ∧ sinN 44 ≤ -0.4999999999967 := by
  obtain ⟨ha, hb⟩ := sinb_4
  have h : sinN 44 = -sinN 4 := by
    unfold sinN
    rw [show ((44:ℕ):ℝ) * (Real.pi / 24) = (Real.pi - ((4:ℕ):ℝ) * (Real.pi / 24)) + Real.pi by
      push_cast; ring, Real.sin_add_pi, Real.sin_pi_sub]
  rw [h]
  constructor <;> linarith

lemma sinNb_45 : (-0.3826834323678 : ℝ) ≤ sinN 45 ∧ sinN 45 ≤ -0.3826834323627 := by
  obtain ⟨ha, hb⟩ := sinb_3
  have h : sinN 45 = -sinN 3 := by
    unfold sinN
    rw [show ((45:ℕ):ℝ) * (Real.pi / 24) = (Real.pi - ((3:ℕ):ℝ) * (Real.pi / 24)) + Real.pi by
      push_cast; ring, Real.sin_add_pi, Real.sin_pi_sub]
  rw [h]
  constructor <;> linarith

lemma sinNb_46 : (-0.2588190451043 : ℝ) ≤ sinN 46 ∧ sinN 46 ≤ -0.2588190451010 := by
  obtain ⟨ha, hb⟩ := sinb_2
  have h : sinN 46 = -sinN 2 := by
    unfold sinN
    rw [show ((46:ℕ):ℝ) * (Real.pi / 24) = (Real.pi - ((2:ℕ):ℝ) * (Real.pi / 24)) + Real.pi by
      push_cast; ring, Real.sin_add_pi, Real.sin_pi_sub]
  rw [h]
  constructor <;> linarith

lemma sinNb_47 : (-0.1305261922209 : ℝ) ≤ sinN 47 ∧ sinN 47 ≤ -0.1305261922193 := by
  obtain ⟨ha, hb⟩ := sinb_1
  have h : sinN 47 = -sinN 1 := by
    unfold sinN
    rw [show ((47:ℕ):ℝ) * (Real.pi / 24) = (Real.pi - ((1:ℕ):ℝ) * (Real.pi / 24)) + Real.pi by
      push_cast; ring, Real.sin_add_pi, Real.sin_pi_sub]
  rw [h]
  constructor <;> linarith

lemma vals_0 :
    synthSample 0 = (0 : ℤ) ∧ c10_formula 0 = (0 : ℤ) ∧
      c4_amendedSample 0 = (0 : ℤ) := by
  obtain ⟨hsl, hsh⟩ := sinNb_0
  have hcl := abs_le.mp (sin_code_close 0 (by norm_num))
  unfold sinN at hsl hsh hcl
  refine ⟨?_, ?_, ?_⟩
  · unfold synthSample
    rw [show ((0:ℕ):ℝ) * (1000 / 48000 * 2 * codePi) = ((0:ℕ):ℝ) * (codePi / 24) by
      push_cast; ring]
    apply truncTZ_eq_zero
    · simp only [DAMPENING_FACTOR]; push_cast; linarith
    · simp only [DAMPENING_FACTOR]; push_cast; linarith
  · unfold c10_formula
    rw [show 2 * Real.pi * (1000 / 48000) * ((0:ℕ):ℝ) = ((0:ℕ):ℝ) * (Real.pi / 24) by
      push_cast; ring]
    apply truncTZ_eq_zero
    · push_cast; linarith
    · push_cast; linarith
  · unfold c4_amendedSample
    rw [show 2 * Real.pi * (1000 / 48000) * ((0:ℕ):ℝ) = ((0:ℕ):ℝ) * (Real.pi / 24) by
      push_cast; ring]
    have ht : truncTZ (32767 * (DAMPENING_FACTOR *
        Real.sin (((0:ℕ):ℝ) * (Real.pi / 24)))) = (0 : ℤ) := by
      apply truncTZ_eq_zero
      · simp only [DAMPENING_FACTOR]; push_cast; linarith
      · simp only [DAMPENING_FACTOR]; push_cast; linarith
    rw [ht]
    norm_num

lemma vals_1 :
    synthSample 1 = (3027 : ℤ) ∧ c10_formula 1 = (3027 : ℤ) ∧
      c4_amendedSample 1 = (3027 : ℤ) := by
  obtain ⟨hsl, hsh⟩ := sinNb_1
  have hcl := abs_le.mp (sin_code_close 1 (by norm_num))
  unfold sinN at hsl hsh hcl
  refine ⟨?_, ?_, ?_⟩
  · unfold synthSample
    rw [show ((1:ℕ):ℝ) * (1000 / 48000 * 2 * codePi) = ((1:ℕ):ℝ) * (codePi / 24) by
      push_cast; ring]
    apply truncTZ_eq_of_pos _ _ (by norm_num)
    · simp only [DAMPENING_FACTOR]; push_cast; linarith
    · simp only [DAMPENING_FACTOR]; push_cast; linarith
  · unfold c10_formula
    rw [show 2 * Real.pi * (1000 / 48000) * ((1:ℕ):ℝ) = ((1:ℕ):ℝ) * (Real.pi / 24) by
      push_cast; ring]
    apply truncTZ_eq_of_pos _ _ (by norm_num)
    · push_cast; linarith
    · push_cast; linarith
  · unfold c4_amendedSample
    rw [show 2 * Real.pi * (1000 / 48000) * ((1:ℕ):ℝ) = ((1:ℕ):ℝ) * (Real.pi / 24) by
      push_cast; ring]
    have ht : truncTZ (32767 * (DAMPENING_FACTOR *
        Real.sin (((1:ℕ):ℝ) * (Real.pi / 24)))) = (3027 : ℤ) := by
      apply truncTZ_eq_of_pos _ _ (by norm_num)
      · simp only [DAMPENING_FACTOR]; push_cast; linarith
      · simp only [DAMPENING_FACTOR]; push_cast; linarith
    rw [ht]
    norm_num

lemma vals_2 :
    synthSample 2 = (6003 : ℤ) ∧ c10_formula 2 = (6003 : ℤ) ∧
      c4_amendedSample 2 = (6003 : ℤ) := by
  obtain ⟨hsl, hsh⟩ := sinNb_2
  have hcl := abs_le.mp (sin_code_close 2 (by norm_num))
  unfold sinN at hsl hsh hcl
  refine ⟨?_, ?_, ?_⟩
  · unfold synthSample
    rw [show ((2:ℕ):ℝ) * (1000 / 48000 * 2 * codePi) = ((2:ℕ):ℝ) * (codePi / 24) by
      push_cast; ring]
    apply truncTZ_eq_of_pos _ _ (by norm_num)
    · simp only [DAMPENING_FACTOR]; push_cast; linarith
    · simp only [DAMPENING_FACTOR]; push_cast; linarith
  · unfold c10_formula
    rw [show 2 * Real.pi * (1000 / 48000) * ((2:ℕ):ℝ) = ((2:ℕ):ℝ) * (Real.pi / 24) by
      push_cast; ring]
    apply truncTZ_eq_of_pos _ _ (by norm_num)
    · push_cast; linarith
    · push_cast; linarith
  · unfold c4_amendedSample
    rw [show 2 * Real.pi * (1000 / 48000) * ((2:ℕ):ℝ) = ((2:ℕ):ℝ) * (Real.pi / 24) by
      push_cast; ring]
    have ht : truncTZ (32767 * (DAMPENING_FACTOR *
        Real.sin (((2:ℕ):ℝ) * (Real.pi / 24)))) = (6003 : ℤ) := by
      apply truncTZ_eq_of_pos _ _ (by norm_num)
      · simp only [DAMPENING_FACTOR]; push_cast; linarith
      · simp only [DAMPENING_FACTOR]; push_cast; linarith
    rw [ht]
    norm_num

lemma vals_3 :
    synthSample 3 = (8877 : ℤ) ∧ c10_formula 3 = (8877 : ℤ) ∧
      c4_amendedSample 3 = (8877 : ℤ) := by
  obtain ⟨hsl, hsh⟩ := sinNb_3
  have hcl := abs_le.mp (sin_code_close 3 (by norm_num))
  unfold sinN at hsl hsh hcl
  refine ⟨?_, ?_, ?_⟩
  · unfold synthSample
    rw [show ((3:ℕ):ℝ) * (1000 / 48000 * 2 * codePi) = ((3:ℕ):ℝ) * (codePi / 24) by
      push_cast; ring]
    apply truncTZ_eq_of_pos _ _ (by norm_num)
    · simp only [DAMPENING_FACTOR]; push_cast; linarith
    · simp only [DAMPENING_FACTOR]; push_cast; linarith
  · unfold c10_formula
    rw [show 2 * Real.pi * (1000 / 48000) * ((3:ℕ):ℝ) = ((3:ℕ):ℝ) * (Real.pi / 24) by
      push_cast; ring]
    apply truncTZ_eq_of_pos _ _ (by norm_num)
    · push_cast; linarith
    · push_cast; linarith
  · unfold c4_amendedSample
    rw [show 2 * Real.pi * (1000 / 48000) * ((3:ℕ):ℝ) = ((3:ℕ):ℝ) * (Real.pi / 24) by
      push_cast; ring]
    have ht : truncTZ (32767 * (DAMPENING_FACTOR *
        Real.sin (((3:ℕ):ℝ) * (Real.pi / 24)))) = (8877 : ℤ) := by
      apply truncTZ_eq_of_pos _ _ (by norm_num)
      · simp only [DAMPENING_FACTOR]; push_cast; linarith
      · simp only [DAMPENING_FACTOR]; push_cast; linarith
    rw [ht]
    norm_num

lemma vals_4 :
    synthSample 4 = (11598 : ℤ) ∧ c10_formula 4 = (11598 : ℤ) ∧
      c4_amendedSample 4 = (11598 : ℤ) := by
  obtain ⟨hsl, hsh⟩ := sinNb_4
  have hcl := abs_le.mp (sin_code_close 4 (by norm_num))
  unfold sinN at hsl hsh hcl
  refine ⟨?_, ?_, ?_⟩
  · unfold synthSample
    rw [show ((4:ℕ):ℝ) * (1000 / 48000 * 2 * codePi) = ((4:ℕ):ℝ) * (codePi / 24) by
      push_cast; ring]
    apply truncTZ_eq_of_pos _ _ (by norm_num)
    · simp only [DAMPENING_FACTOR]; push_cast; linarith
    · simp only [DAMPENING_FACTOR]; push_cast; linarith
  · unfold c10_formula
    rw [show 2 * Real.pi * (1000 / 48000) * ((4:ℕ):ℝ) = ((4:ℕ):ℝ) * (Real.pi / 24) by
      push_cast; ring]
    apply truncTZ_eq_of_pos _ _ (by norm_num)
    · push_cast; linarith
    · push_cast; linarith
  · unfold c4_amendedSample
    rw [show 2 * Real.pi * (1000 / 48000) * ((4:ℕ):ℝ) = ((4:ℕ):ℝ) * (Real.pi / 24) by
      push_cast; ring]
    have ht : truncTZ (32767 * (DAMPENING_FACTOR *
        Real.sin (((4:ℕ):ℝ) * (Real.pi / 24)))) = (11598 : ℤ) := by
      apply truncTZ_eq_of_pos _ _ (by norm_num)
      · simp only [DAMPENING_FACTOR]; push_cast; linarith
      · simp only [DAMPENING_FACTOR]; push_cast; linarith
    rw [ht]
    norm_num

lemma vals_5 :
    synthSample 5 = (14121 : ℤ) ∧ c10_formula 5 = (14121 : ℤ) ∧
      c4_amendedSample 5 = (14121 : ℤ) := by
  obtain ⟨hsl, hsh⟩ := sinNb_5
  have hcl := abs_le.mp (sin_code_close 5 (by norm_num))
  unfold sinN at hsl hsh hcl
  refine ⟨?_, ?_, ?_⟩
  · unfold synthSample
    rw [show ((5:ℕ):ℝ) * (1000 / 48000 * 2 * codePi) = ((5:ℕ):ℝ) * (codePi / 24) by
      push_cast; ring]
    apply truncTZ_eq_of_pos _ _ (by norm_num)
    · simp only [DAMPENING_FACTOR]; push_cast; linarith
    · simp only [DAMPENING_FACTOR]; push_cast; linarith
  · unfold c10_formula
    rw [show 2 * Real.pi * (1000 / 48000) * ((5:ℕ):ℝ) = ((5:ℕ):ℝ) * (Real.pi / 24) by
      push_cast; ring]
    apply truncTZ_eq_of_pos _ _ (by norm_num)
    · push_cast; linarith
    · push_cast; linarith
  · unfold c4_amendedSample
    rw [show 2 * Real.pi * (1000 / 48000) * ((5:ℕ):ℝ) = ((5:ℕ):ℝ) * (Real.pi / 24) by
      push_cast; ring]
    have ht : truncTZ (32767 * (DAMPENING_FACTOR *
        Real.sin (((5:ℕ):ℝ) * (Real.pi / 24)))) = (14121 : ℤ) := by
      apply truncTZ_eq_of_pos _ _ (by norm_num)
      · simp only [DAMPENING_FACTOR]; push_cast; linarith
      · simp only [DAMPENING_FACTOR]; push_cast; linarith
    rw [ht]
    norm_num

lemma vals_6 :
    synthSample 6 = (16402 : ℤ) ∧ c10_formula 6 = (16402 : ℤ) ∧
      c4_amendedSample 6 = (16402 : ℤ) := by
  obtain ⟨hsl, hsh⟩ := sinNb_6
  have hcl := abs_le.mp (sin_code_close 6 (by norm_num))
  unfold sinN at hsl hsh hcl
  refine ⟨?_, ?_, ?_⟩
  · unfold synthSample
    rw [show ((6:ℕ):ℝ) * (1000 / 48000 * 2 * codePi) = ((6:ℕ):ℝ) * (codePi / 24) by
      push_cast; ring]
    apply truncTZ_eq_of_pos _ _ (by norm_num)
    · simp only [DAMPENING_FACTOR]; push_cast; linarith
    · simp only [DAMPENING_FACTOR]; push_cast; linarith
  · unfold c10_formula
    rw [show 2 * Real.pi * (1000 / 48000) * ((6:ℕ):ℝ) = ((6:ℕ):ℝ) * (Real.pi / 24) by
      push_cast; ring]
    apply truncTZ_eq_of_pos _ _ (by norm_num)
    · push_cast; linarith
    · push_cast; linarith
  · unfold c4_amendedSample
    rw [show 2 * Real.pi * (1000 / 48000) * ((6:ℕ):ℝ) = ((6:ℕ):ℝ) * (Real.pi / 24) by
      push_cast; ring]
    have ht : truncTZ (32767 * (DAMPENING_FACTOR *
        Real.sin (((6:ℕ):ℝ) * (Real.pi / 24)))) = (16402 : ℤ) := by
      apply truncTZ_eq_of_pos _ _ (by norm_num)
      · simp only [DAMPENING_FACTOR]; push_cast; linarith
      · simp only [DAMPENING_FACTOR]; push_cast; linarith
    rw [ht]
    norm_num

lemma vals_7 :
    synthSample 7 = (18403 : ℤ) ∧ c10_formula 7 = (18403 : ℤ) ∧
      c4_amendedSample 7 = (18403 : ℤ) := by
  obtain ⟨hsl, hsh⟩ := sinNb_7
  have hcl := abs_le.mp (sin_code_close 7 (by norm_num))
  unfold sinN at hsl hsh hcl
  refine ⟨?_, ?_, ?_⟩
  · unfold synthSample
    rw [show ((7:ℕ):ℝ) * (1000 / 48000 * 2 * codePi) = ((7:ℕ):ℝ) * (codePi / 24) by
      push_cast; ring]
    apply truncTZ_eq_of_pos _ _ (by norm_num)
    · simp only [DAMPENING_FACTOR]; push_cast; linarith
    · simp only [DAMPENING_FACTOR]; push_cast; linarith
  · unfold c10_formula
    rw [show 2 * Real.pi * (1000 / 48000) * ((7:ℕ):ℝ) = ((7:ℕ):ℝ) * (Real.pi / 24) by
      push_cast; ring]
    apply truncTZ_eq_of_pos _ _ (by norm_num)
    · push_cast; linarith
    · push_cast; linarith
  · unfold c4_amendedSample
    rw [show 2 * Real.pi * (1000 / 48000) * ((7:ℕ):ℝ) = ((7:ℕ):ℝ) * (Real.pi / 24) by
      push_cast; ring]
    have ht : truncTZ (32767 * (DAMPENING_FACTOR *
        Real.sin (((7:ℕ):ℝ) * (Real.pi / 24)))) = (18403 : ℤ) := by
      apply truncTZ_eq_of_pos _ _ (by norm_num)
      · simp only [DAMPENING_FACTOR]; push_cast; linarith
      · simp only [DAMPENING_FACTOR]; push_cast; linarith
    rw [ht]
    norm_num

lemma vals_8 :
    synthSample 8 = (20089 : ℤ) ∧ c10_formula 8 = (20089 : ℤ) ∧
      c4_amendedSample 8 = (20089 : ℤ) := by
  obtain ⟨hsl, hsh⟩ := sinNb_8
  have hcl := abs_le.mp (sin_code_close 8 (by norm_num))
  unfold sinN at hsl hsh hcl
  refine ⟨?_, ?_, ?_⟩
  · unfold synthSample
    rw [show ((8:ℕ):ℝ) * (1000 / 48000 * 2 * codePi) = ((8:ℕ):ℝ) * (codePi / 24) by
      push_cast; ring]
    apply truncTZ_eq_of_pos _ _ (by norm_num)
    · simp only [DAMPENING_FACTOR]; push_cast; linarith
    · simp only [DAMPENING_FACTOR]; push_cast; linarith
  · unfold c10_formula
    rw [show 2 * Real.pi * (1000 / 48000) * ((8:ℕ):ℝ) = ((8:ℕ):ℝ) * (Real.pi / 24) by
      push_cast; ring]
    apply truncTZ_eq_of_pos _ _ (by norm_num)
    · push_cast; linarith
    · push_cast; linarith
  · unfold c4_amendedSample
    rw [show 2 * Real.pi * (1000 / 48000) * ((8:ℕ):ℝ) = ((8:ℕ):ℝ) * (Real.pi / 24) by
      push_cast; ring]
    have ht : truncTZ (32767 * (DAMPENING_FACTOR *
        Real.sin (((8:ℕ):ℝ) * (Real.pi / 24)))) = (20089 : ℤ) := by
      apply truncTZ_eq_of_pos _ _ (by norm_num)
      · simp only [DAMPENING_FACTOR]; push_cast; linarith
      · simp only [DAMPENING_FACTOR]; push_cast; linarith
    rw [ht]
    norm_num

lemma vals_9 :
    synthSample 9 = (21431 : ℤ) ∧ c10_formula 9 = (21431 : ℤ) ∧
      c4_amendedSample 9 = (21431 : ℤ) := by
  obtain ⟨hsl, hsh⟩ := sinNb_9
  have hcl := abs_le.mp (sin_code_close 9 (by norm_num))
  unfold sinN at hsl hsh hcl
  refine ⟨?_, ?_, ?_⟩
  · unfold synthSample
    rw [show ((9:ℕ):ℝ) * (1000 / 48000 * 2 * codePi) = ((9:ℕ):ℝ) * (codePi / 24) by
      push_cast; ring]
    apply truncTZ_eq_of_pos _ _ (by norm_num)
    · simp only [DAMPENING_FACTOR]; push_cast; linarith
    · simp only [DAMPENING_FACTOR]; push_cast; linarith
  · unfold c10_formula
    rw [show 2 * Real.pi * (1000 / 48000) * ((9:ℕ):ℝ) = ((9:ℕ):ℝ) * (Real.pi / 24) by
      push_cast; ring]
    apply truncTZ_eq_of_pos _ _ (by norm_num)
    · push_cast; linarith
    · push_cast; linarith
  · unfold c4_amendedSample
    rw [show 2 * Real.pi * (1000 / 48000) * ((9:ℕ):ℝ) = ((9:ℕ):ℝ) * (Real.pi / 24) by
      push_cast; ring]
    have ht : truncTZ (32767 * (DAMPENING_FACTOR *
        Real.sin (((9:ℕ):ℝ) * (Real.pi / 24)))) = (21431 : ℤ) := by
      apply truncTZ_eq_of_pos _ _ (by norm_num)
      · simp only [DAMPENING_FACTOR]; push_cast; linarith
      · simp only [DAMPENING_FACTOR]; push_cast; linarith
    rw [ht]
    norm_num

lemma vals_10 :
    synthSample 10 = (22406 : ℤ) ∧ c10_formula 10 = (22406 : ℤ) ∧
      c4_amendedSample 10 = (22406 : ℤ) := by
  obtain ⟨hsl, hsh⟩ := sinNb_10
  have hcl := abs_le.mp (sin_code_close 10 (by norm_num))
  unfold sinN at hsl hsh hcl
  refine ⟨?_, ?_, ?_⟩
  · unfold synthSample
    rw [show ((10:ℕ):ℝ) * (1000 / 48000 * 2 * codePi) = ((10:ℕ):ℝ) * (codePi / 24) by
      push_cast; ring]
    apply truncTZ_eq_of_pos _ _ (by norm_num)
    · simp only [DAMPENING_FACTOR]; push_cast; linarith
    · simp only [DAMPENING_FACTOR]; push_cast; linarith
  · unfold c10_formula
    rw [show 2 * Real.pi * (1000 / 48000) * ((10:ℕ):ℝ) = ((10:ℕ):ℝ) * (Real.pi / 24) by
      push_cast; ring]
    apply truncTZ_eq_of_pos _ _ (by norm_num)
    · push_cast; linarith
    · push_cast; linarith
  · unfold c4_amendedSample
    rw [show 2 * Real.pi * (1000 / 48000) * ((10:ℕ):ℝ) = ((10:ℕ):ℝ) * (Real.pi / 24) by
      push_cast; ring]
    have ht : truncTZ (32767 * (DAMPENING_FACTOR *
        Real.sin (((10:ℕ):ℝ) * (Real.pi / 24)))) = (22406 : ℤ) := by
      apply truncTZ_eq_of_pos _ _ (by norm_num)
      · simp only [DAMPENING_FACTOR]; push_cast; linarith
      · simp only [DAMPENING_FACTOR]; push_cast; linarith
    rw [ht]
    norm_num

lemma vals_11 :
    synthSample 11 = (22998 : ℤ) ∧ c10_formula 11 = (22998 : ℤ) ∧
      c4_amendedSample 11 = (22998 : ℤ) := by
  obtain ⟨hsl, hsh⟩ := sinNb_11
  have hcl := abs_le.mp (sin_code_close 11 (by norm_num))
  unfold sinN at hsl hsh hcl
  refine ⟨?_, ?_, ?_⟩
  · unfold synthSample
    rw [show ((11:ℕ):ℝ) * (1000 / 48000 * 2 * codePi) = ((11:ℕ):ℝ) * (codePi / 24) by
      push_cast; ring]
    apply truncTZ_eq_of_pos _ _ (by norm_num)
    · simp only [DAMPENING_FACTOR]; push_cast; linarith
    · simp only [DAMPENING_FACTOR]; push_cast; linarith
  · unfold c10_formula
    rw [show 2 * Real.pi * (1000 / 48000) * ((11:ℕ):ℝ) = ((11:ℕ):ℝ) * (Real.pi / 24) by
      push_cast; ring]
    apply truncTZ_eq_of_pos _ _ (by norm_num)
    · push_cast; linarith
    · push_cast; linarith
  · unfold c4_amendedSample
    rw [show 2 * Real.pi * (1000 / 48000) * ((11:ℕ):ℝ) = ((11:ℕ):ℝ) * (Real.pi / 24) by
      push_cast; ring]
    have ht : truncTZ (32767 * (DAMPENING_FACTOR *
        Real.sin (((11:ℕ):ℝ) * (Real.pi / 24)))) = (22998 : ℤ) := by
      apply truncTZ_eq_of_pos _ _ (by norm_num)
      · simp only [DAMPENING_FACTOR]; push_cast; linarith
      · simp only [DAMPENING_FACTOR]; push_cast; linarith
    rw [ht]
    norm_num

lemma vals_12 :
    synthSample 12 = (23197 : ℤ) ∧ c10_formula 12 = (23197 : ℤ) ∧
      c4_amendedSample 12 = (23197 : ℤ) := by
  obtain ⟨hsl, hsh⟩ := sinNb_12
  have hcl := abs_le.mp (sin_code_close 12 (by norm_num))
  unfold sinN at hsl hsh hcl
  refine ⟨?_, ?_, ?_⟩
  · unfold synthSample
    rw [show ((12:ℕ):ℝ) * (1000 / 48000 * 2 * codePi) = ((12:ℕ):ℝ) * (codePi / 24) by
      push_cast; ring]
    apply truncTZ_eq_of_pos _ _ (by norm_num)
    · simp only [DAMPENING_FACTOR]; push_cast; linarith
    · simp only [DAMPENING_FACTOR]; push_cast; linarith
  · unfold c10_formula
    rw [show 2 * Real.pi * (1000 / 48000) * ((12:ℕ):ℝ) = ((12:ℕ):ℝ) * (Real.pi / 24) by
      push_cast; ring]
    apply truncTZ_eq_of_pos _ _ (by norm_num)
    · push_cast; linarith
    · push_cast; linarith
  · unfold c4_amendedSample
    rw [show 2 * Real.pi * (1000 / 48000) * ((12:ℕ):ℝ) = ((12:ℕ):ℝ) * (Real.pi / 24) by
      push_cast; ring]
    have ht : truncTZ (32767 * (DAMPENING_FACTOR *
        Real.sin (((12:ℕ):ℝ) * (Real.pi / 24)))) = (23197 : ℤ) := by
      apply truncTZ_eq_of_pos _ _ (by norm_num)
      · simp only [DAMPENING_FACTOR]; push_cast; linarith
      · simp only [DAMPENING_FACTOR]; push_cast; linarith
    rw [ht]
    norm_num

lemma vals_13 :
    synthSample 13 = (22998 : ℤ) ∧ c10_formula 13 = (22998 : ℤ) ∧
      c4_amendedSample 13 = (22998 : ℤ) := by
  obtain ⟨hsl, hsh⟩ := sinNb_13
  have hcl := abs_le.mp (sin_code_close 13 (by norm_num))
  unfold sinN at hsl hsh hcl
  refine ⟨?_, ?_, ?_⟩
  · unfold synthSample
    rw [show ((13:ℕ):ℝ) * (1000 / 48000 * 2 * codePi) = ((13:ℕ):ℝ) * (codePi / 24) by
      push_cast; ring]
    apply truncTZ_eq_of_pos _ _ (by norm_num)
    · simp only [DAMPENING_FACTOR]; push_cast; linarith
    · simp only [DAMPENING_FACTOR]; push_cast; linarith
  · unfold c10_formula
    rw [show 2 * Real.pi * (1000 / 48000) * ((13:ℕ):ℝ) = ((13:ℕ):ℝ) * (Real.pi / 24) by
      push_cast; ring]
    apply truncTZ_eq_of_pos _ _ (by norm_num)
    · push_cast; linarith
    · push_cast; linarith
  · unfold c4_amendedSample
    rw [show 2 * Real.pi * (1000 / 48000) * ((13:ℕ):ℝ) = ((13:ℕ):ℝ) * (Real.pi / 24) by
      push_cast; ring]
    have ht : truncTZ (32767 * (DAMPENING_FACTOR *
        Real.sin (((13:ℕ):ℝ) * (Real.pi / 24)))) = (22998 : ℤ) := by
      apply truncTZ_eq_of_pos _ _ (by norm_num)
      · simp only [DAMPENING_FACTOR]; push_cast; linarith
      · simp only [DAMPENING_FACTOR]; push_cast; linarith
    rw [ht]
    norm_num

lemma vals_14 :
    synthSample 14 = (22406 : ℤ) ∧ c10_formula 14 = (22406 : ℤ) ∧
      c4_amendedSample 14 = (22406 : ℤ) := by
  obtain ⟨hsl, hsh⟩ := sinNb_14
  have hcl := abs_le.mp (sin_code_close 14 (by norm_num))
  unfold sinN at hsl hsh hcl
  refine ⟨?_, ?_, ?_⟩
  · unfold synthSample
    rw [show ((14:ℕ):ℝ) * (1000 / 48000 * 2 * codePi) = ((14:ℕ):ℝ) * (codePi / 24) by
      push_cast; ring]
    apply truncTZ_eq_of_pos _ _ (by norm_num)
    · simp only [DAMPENING_FACTOR]; push_cast; linarith
    · simp only [DAMPENING_FACTOR]; push_cast; linarith
  · unfold c10_formula
    rw [show 2 * Real.pi * (1000 / 48000) * ((14:ℕ):ℝ) = ((14:ℕ):ℝ) * (Real.pi / 24) by
      push_cast; ring]
    apply truncTZ_eq_of_pos _ _ (by norm_num)
    · push_cast; linarith
    · push_cast; linarith
  · unfold c4_amendedSample
    rw [show 2 * Real.pi * (1000 / 48000) * ((14:ℕ):ℝ) = ((14:ℕ):ℝ) * (Real.pi / 24) by
      push_cast; ring]
    have ht : truncTZ (32767 * (DAMPENING_FACTOR *
        Real.sin (((14:ℕ):ℝ) * (Real.pi / 24)))) = (22406 : ℤ) := by
      apply truncTZ_eq_of_pos _ _ (by norm_num)
      · simp only [DAMPENING_FACTOR]; push_cast; linarith
      · simp only [DAMPENING_FACTOR]; push_cast; linarith
    rw [ht]
    norm_num

lemma vals_15 :
    synthSample 15 = (21431 : ℤ) ∧ c10_formula 15 = (21431 : ℤ) ∧
      c4_amendedSample 15 = (21431 : ℤ) := by
  obtain ⟨hsl, hsh⟩ := sinNb_15
  have hcl := abs_le.mp (sin_code_close 15 (by norm_num))
  unfold sinN at hsl hsh hcl
  refine ⟨?_, ?_, ?_⟩
  · unfold synthSample
    rw [show ((15:ℕ):ℝ) * (1000 / 48000 * 2 * codePi) = ((15:ℕ):ℝ) * (codePi / 24) by
      push_cast; ring]
    apply truncTZ_eq_of_pos _ _ (by norm_num)
    · simp only [DAMPENING_FACTOR]; push_cast; linarith
    · simp only [DAMPENING_FACTOR]; push_cast; linarith
  · unfold c10_formula
    rw [show 2 * Real.pi * (1000 / 48000) * ((15:ℕ):ℝ) = ((15:ℕ):ℝ) * (Real.pi / 24) by
      push_cast; ring]
    apply truncTZ_eq_of_pos _ _ (by norm_num)
    · push_cast; linarith
    · push_cast; linarith
  · unfold c4_amendedSample
    rw [show 2 * Real.pi * (1000 / 48000) * ((15:ℕ):ℝ) = ((15:ℕ):ℝ) * (Real.pi / 24) by
      push_cast; ring]
    have ht : truncTZ (32767 * (DAMPENING_FACTOR *
        Real.sin (((15:ℕ):ℝ) * (Real.pi / 24)))) = (21431 : ℤ) := by
      apply truncTZ_eq_of_pos _ _ (by norm_num)
      · simp only [DAMPENING_FACTOR]; push_cast; linarith
      · simp only [DAMPENING_FACTOR]; push_cast; linarith
    rw [ht]
    norm_num

lemma vals_16 :
    synthSample 16 = (20089 : ℤ) ∧ c10_formula 16 = (20089 : ℤ) ∧
      c4_amendedSample 16 = (20089 : ℤ) := by
  obtain ⟨hsl, hsh⟩ := sinNb_16
  have hcl := abs_le.mp (sin_code_close 16 (by norm_num))
  unfold sinN at hsl hsh hcl
  refine ⟨?_, ?_, ?_⟩
  · unfold synthSample
    rw [show ((16:ℕ):ℝ) * (1000 / 48000 * 2 * codePi) = ((16:ℕ):ℝ) * (codePi / 24) by
      push_cast; ring]
    apply truncTZ_eq_of_pos _ _ (by norm_num)
    · simp only [DAMPENING_FACTOR]; push_cast; linarith
    · simp only [DAMPENING_FACTOR]; push_cast; linarith
  · unfold c10_formula
    rw [show 2 * Real.pi * (1000 / 48000) * ((16:ℕ):ℝ) = ((16:ℕ):ℝ) * (Real.pi / 24) by
      push_cast; ring]
    apply truncTZ_eq_of_pos _ _ (by norm_num)
    · push_cast; linarith
    · push_cast; linarith
  · unfold c4_amendedSample
    rw [show 2 * Real.pi * (1000 / 48000) * ((16:ℕ):ℝ) = ((16:ℕ):ℝ) * (Real.pi / 24) by
      push_cast; ring]
    have ht : truncTZ (32767 * (DAMPENING_FACTOR *
        Real.sin (((16:ℕ):ℝ) * (Real.pi / 24)))) = (20089 : ℤ) := by
      apply truncTZ_eq_of_pos _ _ (by norm_num)
      · simp only [DAMPENING_FACTOR]; push_cast; linarith
      · simp only [DAMPENING_FACTOR]; push_cast; linarith
    rw [ht]
    norm_num

lemma vals_17 :
    synthSample 17 = (18403 : ℤ) ∧ c10_formula 17 = (18403 : ℤ) ∧
      c4_amendedSample 17 = (18403 : ℤ) := by
  obtain ⟨hsl, hsh⟩ := sinNb_17
  have hcl := abs_le.mp (sin_code_close 17 (by norm_num))
  unfold sinN at hsl hsh hcl
  refine ⟨?_, ?_, ?_⟩
  · unfold synthSample
    rw [show ((17:ℕ):ℝ) * (1000 / 48000 * 2 * codePi) = ((17:ℕ):ℝ) * (codePi / 24) by
      push_cast; ring]
    apply truncTZ_eq_of_pos _ _ (by norm_num)
    · simp only [DAMPENING_FACTOR]; push_cast; linarith
    · simp only [DAMPENING_FACTOR]; push_cast; linarith
  · unfold c10_formula
    rw [show 2 * Real.pi * (1000 / 48000) * ((17:ℕ):ℝ) = ((17:ℕ):ℝ) * (Real.pi / 24) by
      push_cast; ring]
    apply truncTZ_eq_of_pos _ _ (by norm_num)
    · push_cast; linarith
    · push_cast; linarith
  · unfold c4_amendedSample
    rw [show 2 * Real.pi * (1000 / 48000) * ((17:ℕ):ℝ) = ((17:ℕ):ℝ) * (Real.pi / 24) by
      push_cast; ring]
    have ht : truncTZ (32767 * (DAMPENING_FACTOR *
        Real.sin (((17:ℕ):ℝ) * (Real.pi / 24)))) = (18403 : ℤ) := by
      apply truncTZ_eq_of_pos _ _ (by norm_num)
      · simp only [DAMPENING_FACTOR]; push_cast; linarith
      · simp only [DAMPENING_FACTOR]; push_cast; linarith
    rw [ht]
    norm_num

lemma vals_18 :
    synthSample 18 = (16402 : ℤ) ∧ c10_formula 18 = (16402 : ℤ) ∧
      c4_amendedSample 18 = (16402 : ℤ) := by
  obtain ⟨hsl, hsh⟩ := sinNb_18
  have hcl := abs_le.mp (sin_code_close 18 (by norm_num))
  unfold sinN at hsl hsh hcl
  refine ⟨?_, ?_, ?_⟩
  · unfold synthSample
    rw [show ((18:ℕ):ℝ) * (1000 / 48000 * 2 * codePi) = ((18:ℕ):ℝ) * (codePi / 24) by
      push_cast; ring]
    apply truncTZ_eq_of_pos _ _ (by norm_num)
    · simp only [DAMPENING_FACTOR]; push_cast; linarith
    · simp only [DAMPENING_FACTOR]; push_cast; linarith
  · unfold c10_formula
    rw [show 2 * Real.pi * (1000 / 48000) * ((18:ℕ):ℝ) = ((18:ℕ):ℝ) * (Real.pi / 24) by
      push_cast; ring]
    apply truncTZ_eq_of_pos _ _ (by norm_num)
    · push_cast; linarith
    · push_cast; linarith
  · unfold c4_amendedSample
    rw [show 2 * Real.pi * (1000 / 48000) * ((18:ℕ):ℝ) = ((18:ℕ):ℝ) * (Real.pi / 24) by
      push_cast; ring]
    have ht : truncTZ (32767 * (DAMPENING_FACTOR *
        Real.sin (((18:ℕ):ℝ) * (Real.pi / 24)))) = (16402 : ℤ) := by
      apply truncTZ_eq_of_pos _ _ (by norm_num)
      · simp only [DAMPENING_FACTOR]; push_cast; linarith
      · simp only [DAMPENING_FACTOR]; push_cast; linarith
    rw [ht]
    norm_num

lemma vals_19 :
    synthSample 19 = (14121 : ℤ) ∧ c10_formula 19 = (14121 : ℤ) ∧
      c4_amendedSample 19 = (14121 : ℤ) := by
  obtain ⟨hsl, hsh⟩ := sinNb_19
  have hcl := abs_le.mp (sin_code_close 19 (by norm_num))
  unfold sinN at hsl hsh hcl
  refine ⟨?_, ?_, ?_⟩
  · unfold synthSample
    rw [show ((19:ℕ):ℝ) * (1000 / 48000 * 2 * codePi) = ((19:ℕ):ℝ) * (codePi / 24) by
      push_cast; ring]
    apply truncTZ_eq_of_pos _ _ (by norm_num)
    · simp only [DAMPENING_FACTOR]; push_cast; linarith
    · simp only [DAMPENING_FACTOR]; push_cast; linarith
  · unfold c10_formula
    rw [show 2 * Real.pi * (1000 / 48000) * ((19:ℕ):ℝ) = ((19:ℕ):ℝ) * (Real.pi / 24) by
      push_cast; ring]
    apply truncTZ_eq_of_pos _ _ (by norm_num)
    · push_cast; linarith
    · push_cast; linarith
  · unfold c4_amendedSample
    rw [show 2 * Real.pi * (1000 / 48000) * ((19:ℕ):ℝ) = ((19:ℕ):ℝ) * (Real.pi / 24) by
      push_cast; ring]
    have ht : truncTZ (32767 * (DAMPENING_FACTOR *
        Real.sin (((19:ℕ):ℝ) * (Real.pi / 24)))) = (14121 : ℤ) := by
      apply truncTZ_eq_of_pos _ _ (by norm_num)
      · simp only [DAMPENING_FACTOR]; push_cast; linarith
      · simp only [DAMPENING_FACTOR]; push_cast; linarith
    rw [ht]
    norm_num

lemma vals_20 :
    synthSample 20 = (11598 : ℤ) ∧ c10_formula 20 = (11598 : ℤ) ∧
      c4_amendedSample 20 = (11598 : ℤ) := by
  obtain ⟨hsl, hsh⟩ := sinNb_20
  have hcl := abs_le.mp (sin_code_close 20 (by norm_num))
  unfold sinN at hsl hsh hcl
  refine ⟨?_, ?_, ?_⟩
  · unfold synthSample
    rw [show ((20:ℕ):ℝ) * (1000 / 48000 * 2 * codePi) = ((20:ℕ):ℝ) * (codePi / 24) by
      push_cast; ring]
    apply truncTZ_eq_of_pos _ _ (by norm_num)
    · simp only [DAMPENING_FACTOR]; push_cast; linarith
    · simp only [DAMPENING_FACTOR]; push_cast; linarith
  · unfold c10_formula
    rw [show 2 * Real.pi * (1000 / 48000) * ((20:ℕ):ℝ) = ((20:ℕ):ℝ) * (Real.pi / 24) by
      push_cast; ring]
    apply truncTZ_eq_of_pos _ _ (by norm_num)
    · push_cast; linarith
    · push_cast; linarith
  · unfold c4_amendedSample
    rw [show 2 * Real.pi * (1000 / 48000) * ((20:ℕ):ℝ) = ((20:ℕ):ℝ) * (Real.pi / 24) by
      push_cast; ring]
    have ht : truncTZ (32767 * (DAMPENING_FACTOR *
        Real.sin (((20:ℕ):ℝ) * (Real.pi / 24)))) = (11598 : ℤ) := by
      apply truncTZ_eq_of_pos _ _ (by norm_num)
      · simp only [DAMPENING_FACTOR]; push_cast; linarith
      · simp only [DAMPENING_FACTOR]; push_cast; linarith
    rw [ht]
    norm_num

lemma vals_21 :
    synthSample 21 = (8877 : ℤ) ∧ c10_formula 21 = (8877 : ℤ) ∧
      c4_amendedSample 21 = (8877 : ℤ) := by
  obtain ⟨hsl, hsh⟩ := sinNb_21
  have hcl := abs_le.mp (sin_code_close 21 (by norm_num))
  unfold sinN at hsl hsh hcl
  refine ⟨?_, ?_, ?_⟩
  · unfold synthSample
    rw [show ((21:ℕ):ℝ) * (1000 / 48000 * 2 * codePi) = ((21:ℕ):ℝ) * (codePi / 24) by
      push_cast; ring]
    apply truncTZ_eq_of_pos _ _ (by norm_num)
    · simp only [DAMPENING_FACTOR]; push_cast; linarith
    · simp only [DAMPENING_FACTOR]; push_cast; linarith
  · unfold c10_formula
    rw [show 2 * Real.pi * (1000 / 48000) * ((21:ℕ):ℝ) = ((21:ℕ):ℝ) * (Real.pi / 24) by
      push_cast; ring]
    apply truncTZ_eq_of_pos _ _ (by norm_num)
    · push_cast; linarith
    · push_cast; linarith
  · unfold c4_amendedSample
    rw [show 2 * Real.pi * (1000 / 48000) * ((21:ℕ):ℝ) = ((21:ℕ):ℝ) * (Real.pi / 24) by
      push_cast; ring]
    have ht : truncTZ (32767 * (DAMPENING_FACTOR *
        Real.sin (((21:ℕ):ℝ) * (Real.pi / 24)))) = (8877 : ℤ) := by
      apply truncTZ_eq_of_pos _ _ (by norm_num)
      · simp only [DAMPENING_FACTOR]; push_cast; linarith
      · simp only [DAMPENING_FACTOR]; push_cast; linarith
    rw [ht]
    norm_num

lemma vals_22 :
    synthSample 22 = (6003 : ℤ) ∧ c10_formula 22 = (6003 : ℤ) ∧
      c4_amendedSample 22 = (6003 : ℤ) := by
  obtain ⟨hsl, hsh⟩ := sinNb_22
  have hcl := abs_le.mp (sin_code_close 22 (by norm_num))
  unfold sinN at hsl hsh hcl
  refine ⟨?_, ?_, ?_⟩
  · unfold synthSample
    rw [show ((22:ℕ):ℝ) * (1000 / 48000 * 2 * codePi) = ((22:ℕ):ℝ) * (codePi / 24) by
      push_cast; ring]
    apply truncTZ_eq_of_pos _ _ (by norm_num)
    · simp only [DAMPENING_FACTOR]; push_cast; linarith
    · simp only [DAMPENING_FACTOR]; push_cast; linarith
  · unfold c10_formula
    rw [show 2 * Real.pi * (1000 / 48000) * ((22:ℕ):ℝ) = ((22:ℕ):ℝ) * (Real.pi / 24) by
      push_cast; ring]
    apply truncTZ_eq_of_pos _ _ (by norm_num)
    · push_cast; linarith
    · push_cast; linarith
  · unfold c4_amendedSample
    rw [show 2 * Real.pi * (1000 / 48000) * ((22:ℕ):ℝ) = ((22:ℕ):ℝ) * (Real.pi / 24) by
      push_cast; ring]
    have ht : truncTZ (32767 * (DAMPENING_FACTOR *
        Real.sin (((22:ℕ):ℝ) * (Real.pi / 24)))) = (6003 : ℤ) := by
      apply truncTZ_eq_of_pos _ _ (by norm_num)
      · simp only [DAMPENING_FACTOR]; push_cast; linarith
      · simp only [DAMPENING_FACTOR]; push_cast; linarith
    rw [ht]
    norm_num

lemma vals_23 :
    synthSample 23 = (3027 : ℤ) ∧ c10_formula 23 = (3027 : ℤ) ∧
      c4_amendedSample 23 = (3027 : ℤ) := by
  obtain ⟨hsl, hsh⟩ := sinNb_23
  have hcl := abs_le.mp (sin_code_close 23 (by norm_num))
  unfold sinN at hsl hsh hcl
  refine ⟨?_, ?_, ?_⟩
  · unfold synthSample
    rw [show ((23:ℕ):ℝ) * (1000 / 48000 * 2 * codePi) = ((23:ℕ):ℝ) * (codePi / 24) by
      push_cast; ring]
    apply truncTZ_eq_of_pos _ _ (by norm_num)
    · simp only [DAMPENING_FACTOR]; push_cast; linarith
    · simp only [DAMPENING_FACTOR]; push_cast; linarith
  · unfold c10_formula
    rw [show 2 * Real.pi * (1000 / 48000) * ((23:ℕ):ℝ) = ((23:ℕ):ℝ) * (Real.pi / 24) by
      push_cast; ring]
    apply truncTZ_eq_of_pos _ _ (by norm_num)
    · push_cast; linarith
    · push_cast; linarith
  · unfold c4_amendedSample
    rw [show 2 * Real.pi * (1000 / 48000) * ((23:ℕ):ℝ) = ((23:ℕ):ℝ) * (Real.pi / 24) by
      push_cast; ring]
    have ht : truncTZ (32767 * (DAMPENING_FACTOR *
        Real.sin (((23:ℕ):ℝ) * (Real.pi / 24)))) = (3027 : ℤ) := by
      apply truncTZ_eq_of_pos _ _ (by norm_num)
      · simp only [DAMPENING_FACTOR]; push_cast; linarith
      · simp only [DAMPENING_FACTOR]; push_cast; linarith
    rw [ht]
    norm_num

lemma vals_24 :
    synthSample 24 = (0 : ℤ) ∧ c10_formula 24 = (0 : ℤ) ∧
      c4_amendedSample 24 = (0 : ℤ) := by
  obtain ⟨hsl, hsh⟩ := sinNb_24
  have hcl := abs_le.mp (sin_code_close 24 (by norm_num))
  unfold sinN at hsl hsh hcl
  refine ⟨?_, ?_, ?_⟩
  · unfold synthSample
    rw [show ((24:ℕ):ℝ) * (1000 / 48000 * 2 * codePi) = ((24:ℕ):ℝ) * (codePi / 24) by
      push_cast; ring]
    apply truncTZ_eq_zero
    · simp only [DAMPENING_FACTOR]; push_cast; linarith
    · simp only [DAMPENING_FACTOR]; push_cast; linarith
  · unfold c10_formula
    rw [show 2 * Real.pi * (1000 / 48000) * ((24:ℕ):ℝ) = ((24:ℕ):ℝ) * (Real.pi / 24) by
      push_cast; ring]
    apply truncTZ_eq_zero
    · push_cast; linarith
    · push_cast; linarith
  · unfold c4_amendedSample
    rw [show 2 * Real.pi * (1000 / 48000) * ((24:ℕ):ℝ) = ((24:ℕ):ℝ) * (Real.pi / 24) by
      push_cast; ring]
    have ht : truncTZ (32767 * (DAMPENING_FACTOR *
        Real.sin (((24:ℕ):ℝ) * (Real.pi / 24)))) = (0 : ℤ) := by
      apply truncTZ_eq_zero
      · simp only [DAMPENING_FACTOR]; push_cast; linarith
      · simp only [DAMPENING_FACTOR]; push_cast; linarith
    rw [ht]
    norm_num

lemma vals_25 :
    synthSample 25 = (-3027 : ℤ) ∧ c10_formula 25 = (-3027 : ℤ) ∧
      c4_amendedSample 25 = (-3027 : ℤ) := by
  obtain ⟨hsl, hsh⟩ := sinNb_25
  have hcl := abs_le.mp (sin_code_close 25 (by norm_num))
  unfold sinN at hsl hsh hcl
  refine ⟨?_, ?_, ?_⟩
  · unfold synthSample
    rw [show ((25:ℕ):ℝ) * (1000 / 48000 * 2 * codePi) = ((25:ℕ):ℝ) * (codePi / 24) by
      push_cast; ring]
    apply truncTZ_eq_of_neg _ _ (by norm_num)
    · simp only [DAMPENING_FACTOR]; push_cast; linarith
    · simp only [DAMPENING_FACTOR]; push_cast; linarith
  · unfold c10_formula
    rw [show 2 * Real.pi * (1000 / 48000) * ((25:ℕ):ℝ) = ((25:ℕ):ℝ) * (Real.pi / 24) by
      push_cast; ring]
    apply truncTZ_eq_of_neg _ _ (by norm_num)
    · push_cast; linarith
    · push_cast; linarith
  · unfold c4_amendedSample
    rw [show 2 * Real.pi * (1000 / 48000) * ((25:ℕ):ℝ) = ((25:ℕ):ℝ) * (Real.pi / 24) by
      push_cast; ring]
    have ht : truncTZ (32767 * (DAMPENING_FACTOR *
        Real.sin (((25:ℕ):ℝ) * (Real.pi / 24)))) = (-3027 : ℤ) := by
      apply truncTZ_eq_of_neg _ _ (by norm_num)
      · simp only [DAMPENING_FACTOR]; push_cast; linarith
      · simp only [DAMPENING_FACTOR]; push_cast; linarith
    rw [ht]
    norm_num

lemma vals_26 :
    synthSample 26 = (-6003 : ℤ) ∧ c10_formula 26 = (-6003 : ℤ) ∧
      c4_amendedSample 26 = (-6003 : ℤ) := by
  obtain ⟨hsl, hsh⟩ := sinNb_26
  have hcl := abs_le.mp (sin_code_close 26 (by norm_num))
  unfold sinN at hsl hsh hcl
  refine ⟨?_, ?_, ?_⟩
  · unfold synthSample
    rw [show ((26:ℕ):ℝ) * (1000 / 48000 * 2 * codePi) = ((26:ℕ):ℝ) * (codePi / 24) by
      push_cast; ring]
    apply truncTZ_eq_of_neg _ _ (by norm_num)
    · simp only [DAMPENING_FACTOR]; push_cast; linarith
    · simp only [DAMPENING_FACTOR]; push_cast; linarith
  · unfold c10_formula
    rw [show 2 * Real.pi * (1000 / 48000) * ((26:ℕ):ℝ) = ((26:ℕ):ℝ) * (Real.pi / 24) by
      push_cast; ring]
    apply truncTZ_eq_of_neg _ _ (by norm_num)
    · push_cast; linarith
    · push_cast; linarith
  · unfold c4_amendedSample
    rw [show 2 * Real.pi * (1000 / 48000) * ((26:ℕ):ℝ) = ((26:ℕ):ℝ) * (Real.pi / 24) by
      push_cast; ring]
    have ht : truncTZ (32767 * (DAMPENING_FACTOR *
        Real.sin (((26:ℕ):ℝ) * (Real.pi / 24)))) = (-6003 : ℤ) := by
      apply truncTZ_eq_of_neg _ _ (by norm_num)
      · simp only [DAMPENING_FACTOR]; push_cast; linarith
      · simp only [DAMPENING_FACTOR]; push_cast; linarith
    rw [ht]
    norm_num

lemma vals_27 :
    synthSample 27 = (-8877 : ℤ) ∧ c10_formula 27 = (-8877 : ℤ) ∧
      c4_amendedSample 27 = (-8877 : ℤ) := by
  obtain ⟨hsl, hsh⟩ := sinNb_27
  have hcl := abs_le.mp (sin_code_close 27 (by norm_num))
  unfold sinN at hsl hsh hcl
  refine ⟨?_, ?_, ?_⟩
  · unfold synthSample
    rw [show ((27:ℕ):ℝ) * (1000 / 48000 * 2 * codePi) = ((27:ℕ):ℝ) * (codePi / 24) by
      push_cast; ring]
    apply truncTZ_eq_of_neg _ _ (by norm_num)
    · simp only [DAMPENING_FACTOR]; push_cast; linarith
    · simp only [DAMPENING_FACTOR]; push_cast; linarith
  · unfold c10_formula
    rw [show 2 * Real.pi * (1000 / 48000) * ((27:ℕ):ℝ) = ((27:ℕ):ℝ) * (Real.pi / 24) by
      push_cast; ring]
    apply truncTZ_eq_of_neg _ _ (by norm_num)
    · push_cast; linarith
    · push_cast; linarith
  · unfold c4_amendedSample
    rw [show 2 * Real.pi * (1000 / 48000) * ((27:ℕ):ℝ) = ((27:ℕ):ℝ) * (Real.pi / 24) by
      push_cast; ring]
    have ht : truncTZ (32767 * (DAMPENING_FACTOR *
        Real.sin (((27:ℕ):ℝ) * (Real.pi / 24)))) = (-8877 : ℤ) := by
      apply truncTZ_eq_of_neg _ _ (by norm_num)
      · simp only [DAMPENING_FACTOR]; push_cast; linarith
      · simp only [DAMPENING_FACTOR]; push_cast; linarith
    rw [ht]
    norm_num

lemma vals_28 :
    synthSample 28 = (-11598 : ℤ) ∧ c10_formula 28 = (-11598 : ℤ) ∧
      c4_amendedSample 28 = (-11598 : ℤ) := by
  obtain ⟨hsl, hsh⟩ := sinNb_28
  have hcl := abs_le.mp (sin_code_close 28 (by norm_num))
  unfold sinN at hsl hsh hcl
  refine ⟨?_, ?_, ?_⟩
  · unfold synthSample
    rw [show ((28:ℕ):ℝ) * (1000 / 48000 * 2 * codePi) = ((28:ℕ):ℝ) * (codePi / 24) by
      push_cast; ring]
    apply truncTZ_eq_of_neg _ _ (by norm_num)
    · simp only [DAMPENING_FACTOR]; push_cast; linarith
    · simp only [DAMPENING_FACTOR]; push_cast; linarith
  · unfold c10_formula
    rw [show 2 * Real.pi * (1000 / 48000) * ((28:ℕ):ℝ) = ((28:ℕ):ℝ) * (Real.pi / 24) by
      push_cast; ring]
    apply truncTZ_eq_of_neg _ _ (by norm_num)
    · push_cast; linarith
    · push_cast; linarith
  · unfold c4_amendedSample
    rw [show 2 * Real.pi * (1000 / 48000) * ((28:ℕ):ℝ) = ((28:ℕ):ℝ) * (Real.pi / 24) by
      push_cast; ring]
    have ht : truncTZ (32767 * (DAMPENING_FACTOR *
        Real.sin (((28:ℕ):ℝ) * (Real.pi / 24)))) = (-11598 : ℤ) := by
      apply truncTZ_eq_of_neg _ _ (by norm_num)
      · simp only [DAMPENING_FACTOR]; push_cast; linarith
      · simp only [DAMPENING_FACTOR]; push_cast; linarith
    rw [ht]
    norm_num

lemma vals_29 :
    synthSample 29 = (-14121 : ℤ) ∧ c10_formula 29 = (-14121 : ℤ) ∧
      c4_amendedSample 29 = (-14121 : ℤ) := by
  obtain ⟨hsl, hsh⟩ := sinNb_29
  have hcl := abs_le.mp (sin_code_close 29 (by norm_num))
  unfold sinN at hsl hsh hcl
  refine ⟨?_, ?_, ?_⟩
  · unfold synthSample
    rw [show ((29:ℕ):ℝ) * (1000 / 48000 * 2 * codePi) = ((29:ℕ):ℝ) * (codePi / 24) by
      push_cast; ring]
    apply truncTZ_eq_of_neg _ _ (by norm_num)
    · simp only [DAMPENING_FACTOR]; push_cast; linarith
    · simp only [DAMPENING_FACTOR]; push_cast; linarith
  · unfold c10_formula
    rw [show 2 * Real.pi * (1000 / 48000) * ((29:ℕ):ℝ) = ((29:ℕ):ℝ) * (Real.pi / 24) by
      push_cast; ring]
    apply truncTZ_eq_of_neg _ _ (by norm_num)
    · push_cast; linarith
    · push_cast; linarith
  · unfold c4_amendedSample
    rw [show 2 * Real.pi * (1000 / 48000) * ((29:ℕ):ℝ) = ((29:ℕ):ℝ) * (Real.pi / 24) by
      push_cast; ring]
    have ht : truncTZ (32767 * (DAMPENING_FACTOR *
        Real.sin (((29:ℕ):ℝ) * (Real.pi / 24)))) = (-14121 : ℤ) := by
      apply truncTZ_eq_of_neg _ _ (by norm_num)
      · simp only [DAMPENING_FACTOR]; push_cast; linarith
      · simp only [DAMPENING_FACTOR]; push_cast; linarith
    rw [ht]
    norm_num

lemma vals_30 :
    synthSample 30 = (-16402 : ℤ) ∧ c10_formula 30 = (-16402 : ℤ) ∧
      c4_amendedSample 30 = (-16402 : ℤ) := by
  obtain ⟨hsl, hsh⟩ := sinNb_30
  have hcl := abs_le.mp (sin_code_close 30 (by norm_num))
  unfold sinN at hsl hsh hcl
  refine ⟨?_, ?_, ?_⟩
  · unfold synthSample
    rw [show ((30:ℕ):ℝ) * (1000 / 48000 * 2 * codePi) = ((30:ℕ):ℝ) * (codePi / 24) by
      push_cast; ring]
    apply truncTZ_eq_of_neg _ _ (by norm_num)
    · simp only [DAMPENING_FACTOR]; push_cast; linarith
    · simp only [DAMPENING_FACTOR]; push_cast; linarith
  · unfold c10_formula
    rw [show 2 * Real.pi * (1000 / 48000) * ((30:ℕ):ℝ) = ((30:ℕ):ℝ) * (Real.pi / 24) by
      push_cast; ring]
    apply truncTZ_eq_of_neg _ _ (by norm_num)
    · push_cast; linarith
    · push_cast; linarith
  · unfold c4_amendedSample
    rw [show 2 * Real.pi * (1000 / 48000) * ((30:ℕ):ℝ) = ((30:ℕ):ℝ) * (Real.pi / 24) by
      push_cast; ring]
    have ht : truncTZ (32767 * (DAMPENING_FACTOR *
        Real.sin (((30:ℕ):ℝ) * (Real.pi / 24)))) = (-16402 : ℤ) := by
      apply truncTZ_eq_of_neg _ _ (by norm_num)
      · simp only [DAMPENING_FACTOR]; push_cast; linarith
      · simp only [DAMPENING_FACTOR]; push_cast; linarith
    rw [ht]
    norm_num

lemma vals_31 :
    synthSample 31 = (-18403 : ℤ) ∧ c10_formula 31 = (-18403 : ℤ) ∧
      c4_amendedSample 31 = (-18403 : ℤ) := by
  obtain ⟨hsl, hsh⟩ := sinNb_31
  have hcl := abs_le.mp (sin_code_close 31 (by norm_num))
  unfold sinN at hsl hsh hcl
  refine ⟨?_, ?_, ?_⟩
  · unfold synthSample
    rw [show ((31:ℕ):ℝ) * (1000 / 48000 * 2 * codePi) = ((31:ℕ):ℝ) * (codePi / 24) by
      push_cast; ring]
    apply truncTZ_eq_of_neg _ _ (by norm_num)
    · simp only [DAMPENING_FACTOR]; push_cast; linarith
    · simp only [DAMPENING_FACTOR]; push_cast; linarith
  · unfold c10_formula
    rw [show 2 * Real.pi * (1000 / 48000) * ((31:ℕ):ℝ) = ((31:ℕ):ℝ) * (Real.pi / 24) by
      push_cast; ring]
    apply truncTZ_eq_of_neg _ _ (by norm_num)
    · push_cast; linarith
    · push_cast; linarith
  · unfold c4_amendedSample
    rw [show 2 * Real.pi * (1000 / 48000) * ((31:ℕ):ℝ) = ((31:ℕ):ℝ) * (Real.pi / 24) by
      push_cast; ring]
    have ht : truncTZ (32767 * (DAMPENING_FACTOR *
        Real.sin (((31:ℕ):ℝ) * (Real.pi / 24)))) = (-18403 : ℤ) := by
      apply truncTZ_eq_of_neg _ _ (by norm_num)
      · simp only [DAMPENING_FACTOR]; push_cast; linarith
      · simp only [DAMPENING_FACTOR]; push_cast; linarith
    rw [ht]
    norm_num

lemma vals_32 :
    synthSample 32 = (-20089 : ℤ) ∧ c10_formula 32 = (-20089 : ℤ) ∧
      c4_amendedSample 32 = (-20089 : ℤ) := by
  obtain ⟨hsl, hsh⟩ := sinNb_32
  have hcl := abs_le.mp (sin_code_close 32 (by norm_num))
  unfold sinN at hsl hsh hcl
  refine ⟨?_, ?_, ?_⟩
  · unfold synthSample
    rw [show ((32:ℕ):ℝ) * (1000 / 48000 * 2 * codePi) = ((32:ℕ):ℝ) * (codePi / 24) by
      push_cast; ring]
    apply truncTZ_eq_of_neg _ _ (by norm_num)
    · simp only [DAMPENING_FACTOR]; push_cast; linarith
    · simp only [DAMPENING_FACTOR]; push_cast; linarith
  · unfold c10_formula
    rw [show 2 * Real.pi * (1000 / 48000) * ((32:ℕ):ℝ) = ((32:ℕ):ℝ) * (Real.pi / 24) by
      push_cast; ring]
    apply truncTZ_eq_of_neg _ _ (by norm_num)
    · push_cast; linarith
    · push_cast; linarith
  · unfold c4_amendedSample
    rw [show 2 * Real.pi * (1000 / 48000) * ((32:ℕ):ℝ) = ((32:ℕ):ℝ) * (Real.pi / 24) by
      push_cast; ring]
    have ht : truncTZ (32767 * (DAMPENING_FACTOR *
        Real.sin (((32:ℕ):ℝ) * (Real.pi / 24)))) = (-20089 : ℤ) := by
      apply truncTZ_eq_of_neg _ _ (by norm_num)
      · simp only [DAMPENING_FACTOR]; push_cast; linarith
      · simp only [DAMPENING_FACTOR]; push_cast; linarith
    rw [ht]
    norm_num

lemma vals_33 :
    synthSample 33 = (-21431 : ℤ) ∧ c10_formula 33 = (-21431 : ℤ) ∧
      c4_amendedSample 33 = (-21431 : ℤ) := by
  obtain ⟨hsl, hsh⟩ := sinNb_33
  have hcl := abs_le.mp (sin_code_close 33 (by norm_num))
  unfold sinN at hsl hsh hcl
  refine ⟨?_, ?_, ?_⟩
  · unfold synthSample
    rw [show ((33:ℕ):ℝ) * (1000 / 48000 * 2 * codePi) = ((33:ℕ):ℝ) * (codePi / 24) by
      push_cast; ring]
    apply truncTZ_eq_of_neg _ _ (by norm_num)
    · simp only [DAMPENING_FACTOR]; push_cast; linarith
    · simp only [DAMPENING_FACTOR]; push_cast; linarith
  · unfold c10_formula
    rw [show 2 * Real.pi * (1000 / 48000) * ((33:ℕ):ℝ) = ((33:ℕ):ℝ) * (Real.pi / 24) by
      push_cast; ring]
    apply truncTZ_eq_of_neg _ _ (by norm_num)
    · push_cast; linarith
    · push_cast; linarith
  · unfold c4_amendedSample
    rw [show 2 * Real.pi * (1000 / 48000) * ((33:ℕ):ℝ) = ((33:ℕ):ℝ) * (Real.pi / 24) by
      push_cast; ring]
    have ht : truncTZ (32767 * (DAMPENING_FACTOR *
        Real.sin (((33:ℕ):ℝ) * (Real.pi / 24)))) = (-21431 : ℤ) := by
      apply truncTZ_eq_of_neg _ _ (by norm_num)
      · simp only [DAMPENING_FACTOR]; push_cast; linarith
      · simp only [DAMPENING_FACTOR]; push_cast; linarith
    rw [ht]
    norm_num

lemma vals_34 :
    synthSample 34 = (-22406 : ℤ) ∧ c10_formula 34 = (-22406 : ℤ) ∧
      c4_amendedSample 34 = (-22406 : ℤ) := by
  obtain ⟨hsl, hsh⟩ := sinNb_34
  have hcl := abs_le.mp (sin_code_close 34 (by norm_num))
  unfold sinN at hsl hsh hcl
  refine ⟨?_, ?_, ?_⟩
  · unfold synthSample
    rw [show ((34:ℕ):ℝ) * (1000 / 48000 * 2 * codePi) = ((34:ℕ):ℝ) * (codePi / 24) by
      push_cast; ring]
    apply truncTZ_eq_of_neg _ _ (by norm_num)
    · simp only [DAMPENING_FACTOR]; push_cast; linarith
    · simp only [DAMPENING_FACTOR]; push_cast; linarith
  · unfold c10_formula
    rw [show 2 * Real.pi * (1000 / 48000) * ((34:ℕ):ℝ) = ((34:ℕ):ℝ) * (Real.pi / 24) by
      push_cast; ring]
    apply truncTZ_eq_of_neg _ _ (by norm_num)
    · push_cast; linarith
    · push_cast; linarith
  · unfold c4_amendedSample
    rw [show 2 * Real.pi * (1000 / 48000) * ((34:ℕ):ℝ) = ((34:ℕ):ℝ) * (Real.pi / 24) by
      push_cast; ring]
    have ht : truncTZ (32767 * (DAMPENING_FACTOR *
        Real.sin (((34:ℕ):ℝ) * (Real.pi / 24)))) = (-22406 : ℤ) := by
      apply truncTZ_eq_of_neg _ _ (by norm_num)
      · simp only [DAMPENING_FACTOR]; push_cast; linarith
      · simp only [DAMPENING_FACTOR]; push_cast; linarith
    rw [ht]
    norm_num

lemma vals_35 :
    synthSample 35 = (-22998 : ℤ) ∧ c10_formula 35 = (-22998 : ℤ) ∧
      c4_amendedSample 35 = (-22998 : ℤ) := by
  obtain ⟨hsl, hsh⟩ := sinNb_35
  have hcl := abs_le.mp (sin_code_close 35 (by norm_num))
  unfold sinN at hsl hsh hcl
  refine ⟨?_, ?_, ?_⟩
  · unfold synthSample
    rw [show ((35:ℕ):ℝ) * (1000 / 48000 * 2 * codePi) = ((35:ℕ):ℝ) * (codePi / 24) by
      push_cast; ring]
    apply truncTZ_eq_of_neg _ _ (by norm_num)
    · simp only [DAMPENING_FACTOR]; push_cast; linarith
    · simp only [DAMPENING_FACTOR]; push_cast; linarith
  · unfold c10_formula
    rw [show 2 * Real.pi * (1000 / 48000) * ((35:ℕ):ℝ) = ((35:ℕ):ℝ) * (Real.pi / 24) by
      push_cast; ring]
    apply truncTZ_eq_of_neg _ _ (by norm_num)
    · push_cast; linarith
    · push_cast; linarith
  · unfold c4_amendedSample
    rw [show 2 * Real.pi * (1000 / 48000) * ((35:ℕ):ℝ) = ((35:ℕ):ℝ) * (Real.pi / 24) by
      push_cast; ring]
    have ht : truncTZ (32767 * (DAMPENING_FACTOR *
        Real.sin (((35:ℕ):ℝ) * (Real.pi / 24)))) = (-22998 : ℤ) := by
      apply truncTZ_eq_of_neg _ _ (by norm_num)
      · simp only [DAMPENING_FACTOR]; push_cast; linarith
      · simp only [DAMPENING_FACTOR]; push_cast; linarith
    rw [ht]
    norm_num

lemma vals_36 :
    synthSample 36 = (-23197 : ℤ) ∧ c10_formula 36 = (-23197 : ℤ) ∧
      c4_amendedSample 36 = (-23197 : ℤ) := by
  obtain ⟨hsl, hsh⟩ := sinNb_36
  have hcl := abs_le.mp (sin_code_close 36 (by norm_num))
  unfold sinN at hsl hsh hcl
  refine ⟨?_, ?_, ?_⟩
  · unfold synthSample
    rw [show ((36:ℕ):ℝ) * (1000 / 48000 * 2 * codePi) = ((36:ℕ):ℝ) * (codePi / 24) by
      push_cast; ring]
    apply truncTZ_eq_of_neg _ _ (by norm_num)
    · simp only [DAMPENING_FACTOR]; push_cast; linarith
    · simp only [DAMPENING_FACTOR]; push_cast; linarith
  · unfold c10_formula
    rw [show 2 * Real.pi * (1000 / 48000) * ((36:ℕ):ℝ) = ((36:ℕ):ℝ) * (Real.pi / 24) by
      push_cast; ring]
    apply truncTZ_eq_of_neg _ _ (by norm_num)
    · push_cast; linarith
    · push_cast; linarith
  · unfold c4_amendedSample
    rw [show 2 * Real.pi * (1000 / 48000) * ((36:ℕ):ℝ) = ((36:ℕ):ℝ) * (Real.pi / 24) by
      push_cast; ring]
    have ht : truncTZ (32767 * (DAMPENING_FACTOR *
        Real.sin (((36:ℕ):ℝ) * (Real.pi / 24)))) = (-23197 : ℤ) := by
      apply truncTZ_eq_of_neg _ _ (by norm_num)
      · simp only [DAMPENING_FACTOR]; push_cast; linarith
      · simp only [DAMPENING_FACTOR]; push_cast; linarith
    rw [ht]
    norm_num

lemma vals_37 :
    synthSample 37 = (-22998 : ℤ) ∧ c10_formula 37 = (-22998 : ℤ) ∧
      c4_amendedSample 37 = (-22998 : ℤ) := by
  obtain ⟨hsl, hsh⟩ := sinNb_37
  have hcl := abs_le.mp (sin_code_close 37 (by norm_num))
  unfold sinN at hsl hsh hcl
  refine ⟨?_, ?_, ?_⟩
  · unfold synthSample
    rw [show ((37:ℕ):ℝ) * (1000 / 48000 * 2 * codePi) = ((37:ℕ):ℝ) * (codePi / 24) by
      push_cast; ring]
    apply truncTZ_eq_of_neg _ _ (by norm_num)
    · simp only [DAMPENING_FACTOR]; push_cast; linarith
    · simp only [DAMPENING_FACTOR]; push_cast; linarith
  · unfold c10_formula
    rw [show 2 * Real.pi * (1000 / 48000) * ((37:ℕ):ℝ) = ((37:ℕ):ℝ) * (Real.pi / 24) by
      push_cast; ring]
    apply truncTZ_eq_of_neg _ _ (by norm_num)
    · push_cast; linarith
    · push_cast; linarith
  · unfold c4_amendedSample
    rw [show 2 * Real.pi * (1000 / 48000) * ((37:ℕ):ℝ) = ((37:ℕ):ℝ) * (Real.pi / 24) by
      push_cast; ring]
    have ht : truncTZ (32767 * (DAMPENING_FACTOR *
        Real.sin (((37:ℕ):ℝ) * (Real.pi / 24)))) = (-22998 : ℤ) := by
      apply truncTZ_eq_of_neg _ _ (by norm_num)
      · simp only [DAMPENING_FACTOR]; push_cast; linarith
      · simp only [DAMPENING_FACTOR]; push_cast; linarith
    rw [ht]
    norm_num

lemma vals_38 :
    synthSample 38 = (-22406 : ℤ) ∧ c10_formula 38 = (-22406 : ℤ) ∧
      c4_amendedSample 38 = (-22406 : ℤ) := by
  obtain ⟨hsl, hsh⟩ := sinNb_38
  have hcl := abs_le.mp (sin_code_close 38 (by norm_num))
  unfold sinN at hsl hsh hcl
  refine ⟨?_, ?_, ?_⟩
  · unfold synthSample
    rw [show ((38:ℕ):ℝ) * (1000 / 48000 * 2 * codePi) = ((38:ℕ):ℝ) * (codePi / 24) by
      push_cast; ring]
    apply truncTZ_eq_of_neg _ _ (by norm_num)
    · simp only [DAMPENING_FACTOR]; push_cast; linarith
    · simp only [DAMPENING_FACTOR]; push_cast; linarith
  · unfold c10_formula
    rw [show 2 * Real.pi * (1000 / 48000) * ((38:ℕ):ℝ) = ((38:ℕ):ℝ) * (Real.pi / 24) by
      push_cast; ring]
    apply truncTZ_eq_of_neg _ _ (by norm_num)
    · push_cast; linarith
    · push_cast; linarith
  · unfold c4_amendedSample
    rw [show 2 * Real.pi * (1000 / 48000) * ((38:ℕ):ℝ) = ((38:ℕ):ℝ) * (Real.pi / 24) by
      push_cast; ring]
    have ht : truncTZ (32767 * (DAMPENING_FACTOR *
        Real.sin (((38:ℕ):ℝ) * (Real.pi / 24)))) = (-22406 : ℤ) := by
      apply truncTZ_eq_of_neg _ _ (by norm_num)
      · simp only [DAMPENING_FACTOR]; push_cast; linarith
      · simp only [DAMPENING_FACTOR]; push_cast; linarith
    rw [ht]
    norm_num

lemma vals_39 :
    synthSample 39 = (-21431 : ℤ) ∧ c10_formula 39 = (-21431 : ℤ) ∧
      c4_amendedSample 39 = (-21431 : ℤ) := by
  obtain ⟨hsl, hsh⟩ := sinNb_39
  have hcl := abs_le.mp (sin_code_close 39 (by norm_num))
  unfold sinN at hsl hsh hcl
  refine ⟨?_, ?_, ?_⟩
  · unfold synthSample
    rw [show ((39:ℕ):ℝ) * (1000 / 48000 * 2 * codePi) = ((39:ℕ):ℝ) * (codePi / 24) by
      push_cast; ring]
    apply truncTZ_eq_of_neg _ _ (by norm_num)
    · simp only [DAMPENING_FACTOR]; push_cast; linarith
    · simp only [DAMPENING_FACTOR]; push_cast; linarith
  · unfold c10_formula
    rw [show 2 * Real.pi * (1000 / 48000) * ((39:ℕ):ℝ) = ((39:ℕ):ℝ) * (Real.pi / 24) by
      push_cast; ring]
    apply truncTZ_eq_of_neg _ _ (by norm_num)
    · push_cast; linarith
    · push_cast; linarith
  · unfold c4_amendedSample
    rw [show 2 * Real.pi * (1000 / 48000) * ((39:ℕ):ℝ) = ((39:ℕ):ℝ) * (Real.pi / 24) by
      push_cast; ring]
    have ht : truncTZ (32767 * (DAMPENING_FACTOR *
        Real.sin (((39:ℕ):ℝ) * (Real.pi / 24)))) = (-21431 : ℤ) := by
      apply truncTZ_eq_of_neg _ _ (by norm_num)
      · simp only [DAMPENING_FACTOR]; push_cast; linarith
      · simp only [DAMPENING_FACTOR]; push_cast; linarith
    rw [ht]
    norm_num

lemma vals_40 :
    synthSample 40 = (-20089 : ℤ) ∧ c10_formula 40 = (-20089 : ℤ) ∧
      c4_amendedSample 40 = (-20089 : ℤ) := by
  obtain ⟨hsl, hsh⟩ := sinNb_40
  have hcl := abs_le.mp (sin_code_close 40 (by norm_num))
  unfold sinN at hsl hsh hcl
  refine ⟨?_, ?_, ?_⟩
  · unfold synthSample
    rw [show ((40:ℕ):ℝ) * (1000 / 48000 * 2 * codePi) = ((40:ℕ):ℝ) * (codePi / 24) by
      push_cast; ring]
    apply truncTZ_eq_of_neg _ _ (by norm_num)
    · simp only [DAMPENING_FACTOR]; push_cast; linarith
    · simp only [DAMPENING_FACTOR]; push_cast; linarith
  · unfold c10_formula
    rw [show 2 * Real.pi * (1000 / 48000) * ((40:ℕ):ℝ) = ((40:ℕ):ℝ) * (Real.pi / 24) by
      push_cast; ring]
    apply truncTZ_eq_of_neg _ _ (by norm_num)
    · push_cast; linarith
    · push_cast; linarith
  · unfold c4_amendedSample
    rw [show 2 * Real.pi * (1000 / 48000) * ((40:ℕ):ℝ) = ((40:ℕ):ℝ) * (Real.pi / 24) by
      push_cast; ring]
    have ht : truncTZ (32767 * (DAMPENING_FACTOR *
        Real.sin (((40:ℕ):ℝ) * (Real.pi / 24)))) = (-20089 : ℤ) := by
      apply truncTZ_eq_of_neg _ _ (by norm_num)
      · simp only [DAMPENING_FACTOR]; push_cast; linarith
      · simp only [DAMPENING_FACTOR]; push_cast; linarith
    rw [ht]
    norm_num

lemma vals_41 :
    synthSample 41 = (-18403 : ℤ) ∧ c10_formula 41 = (-18403 : ℤ) ∧
      c4_amendedSample 41 = (-18403 : ℤ) := by
  obtain ⟨hsl, hsh⟩ := sinNb_41
  have hcl := abs_le.mp (sin_code_close 41 (by norm_num))
  unfold sinN at hsl hsh hcl
  refine ⟨?_, ?_, ?_⟩
  · unfold synthSample
    rw [show ((41:ℕ):ℝ) * (1000 / 48000 * 2 * codePi) = ((41:ℕ):ℝ) * (codePi / 24) by
      push_cast; ring]
    apply truncTZ_eq_of_neg _ _ (by norm_num)
    · simp only [DAMPENING_FACTOR]; push_cast; linarith
    · simp only [DAMPENING_FACTOR]; push_cast; linarith
  · unfold c10_formula
    rw [show 2 * Real.pi * (1000 / 48000) * ((41:ℕ):ℝ) = ((41:ℕ):ℝ) * (Real.pi / 24) by
      push_cast; ring]
    apply truncTZ_eq_of_neg _ _ (by norm_num)
    · push_cast; linarith
    · push_cast; linarith
  · unfold c4_amendedSample
    rw [show 2 * Real.pi * (1000 / 48000) * ((41:ℕ):ℝ) = ((41:ℕ):ℝ) * (Real.pi / 24) by
      push_cast; ring]
    have ht : truncTZ (32767 * (DAMPENING_FACTOR *
        Real.sin (((41:ℕ):ℝ) * (Real.pi / 24)))) = (-18403 : ℤ) := by
      apply truncTZ_eq_of_neg _ _ (by norm_num)
      · simp only [DAMPENING_FACTOR]; push_cast; linarith
      · simp only [DAMPENING_FACTOR]; push_cast; linarith
    rw [ht]
    norm_num

lemma vals_42 :
    synthSample 42 = (-16402 : ℤ) ∧ c10_formula 42 = (-16402 : ℤ) ∧
      c4_amendedSample 42 = (-16402 : ℤ) := by
  obtain ⟨hsl, hsh⟩ := sinNb_42
  have hcl := abs_le.mp (sin_code_close 42 (by norm_num))
  unfold sinN at hsl hsh hcl
  refine ⟨?_, ?_, ?_⟩
  · unfold synthSample
    rw [show ((42:ℕ):ℝ) * (1000 / 48000 * 2 * codePi) = ((42:ℕ):ℝ) * (codePi / 24) by
      push_cast; ring]
    apply truncTZ_eq_of_neg _ _ (by norm_num)
    · simp only [DAMPENING_FACTOR]; push_cast; linarith
    · simp only [DAMPENING_FACTOR]; push_cast; linarith
  · unfold c10_formula
    rw [show 2 * Real.pi * (1000 / 48000) * ((42:ℕ):ℝ) = ((42:ℕ):ℝ) * (Real.pi / 24) by
      push_cast; ring]
    apply truncTZ_eq_of_neg _ _ (by norm_num)
    · push_cast; linarith
    · push_cast; linarith
  · unfold c4_amendedSample
    rw [show 2 * Real.pi * (1000 / 48000) * ((42:ℕ):ℝ) = ((42:ℕ):ℝ) * (Real.pi / 24) by
      push_cast; ring]
    have ht : truncTZ (32767 * (DAMPENING_FACTOR *
        Real.sin (((42:ℕ):ℝ) * (Real.pi / 24)))) = (-16402 : ℤ) := by
      apply truncTZ_eq_of_neg _ _ (by norm_num)
      · simp only [DAMPENING_FACTOR]; push_cast; linarith
      · simp only [DAMPENING_FACTOR]; push_cast; linarith
    rw [ht]
    norm_num

lemma vals_43 :
    synthSample 43 = (-14121 : ℤ) ∧ c10_formula 43 = (-14121 : ℤ) ∧
      c4_amendedSample 43 = (-14121 : ℤ) := by
  obtain ⟨hsl, hsh⟩ := sinNb_43
  have hcl := abs_le.mp (sin_code_close 43 (by norm_num))
  unfold sinN at hsl hsh hcl
  refine ⟨?_, ?_, ?_⟩
  · unfold synthSample
    rw [show ((43:ℕ):ℝ) * (1000 / 48000 * 2 * codePi) = ((43:ℕ):ℝ) * (codePi / 24) by
      push_cast; ring]
    apply truncTZ_eq_of_neg _ _ (by norm_num)
    · simp only [DAMPENING_FACTOR]; push_cast; linarith
    · simp only [DAMPENING_FACTOR]; push_cast; linarith
  · unfold c10_formula
    rw [show 2 * Real.pi * (1000 / 48000) * ((43:ℕ):ℝ) = ((43:ℕ):ℝ) * (Real.pi / 24) by
      push_cast; ring]
    apply truncTZ_eq_of_neg _ _ (by norm_num)
    · push_cast; linarith
    · push_cast; linarith
  · unfold c4_amendedSample
    rw [show 2 * Real.pi * (1000 / 48000) * ((43:ℕ):ℝ) = ((43:ℕ):ℝ) * (Real.pi / 24) by
      push_cast; ring]
    have ht : truncTZ (32767 * (DAMPENING_FACTOR *
        Real.sin (((43:ℕ):ℝ) * (Real.pi / 24)))) = (-14121 : ℤ) := by
      apply truncTZ_eq_of_neg _ _ (by norm_num)
      · simp only [DAMPENING_FACTOR]; push_cast; linarith
      · simp only [DAMPENING_FACTOR]; push_cast; linarith
    rw [ht]
    norm_num

lemma vals_44 :
    synthSample 44 = (-11598 : ℤ) ∧ c10_formula 44 = (-11598 : ℤ) ∧
      c4_amendedSample 44 = (-11598 : ℤ) := by
  obtain ⟨hsl, hsh⟩ := sinNb_44
  have hcl := abs_le.mp (sin_code_close 44 (by norm_num))
  unfold sinN at hsl hsh hcl
  refine ⟨?_, ?_, ?_⟩
  · unfold synthSample
    rw [show ((44:ℕ):ℝ) * (1000 / 48000 * 2 * codePi) = ((44:ℕ):ℝ) * (codePi / 24) by
      push_cast; ring]
    apply truncTZ_eq_of_neg _ _ (by norm_num)
    · simp only [DAMPENING_FACTOR]; push_cast; linarith
    · simp only [DAMPENING_FACTOR]; push_cast; linarith
  · unfold c10_formula
    rw [show 2 * Real.pi * (1000 / 48000) * ((44:ℕ):ℝ) = ((44:ℕ):ℝ) * (Real.pi / 24) by
      push_cast; ring]
    apply truncTZ_eq_of_neg _ _ (by norm_num)
    · push_cast; linarith
    · push_cast; linarith
  · unfold c4_amendedSample
    rw [show 2 * Real.pi * (1000 / 48000) * ((44:ℕ):ℝ) = ((44:ℕ):ℝ) * (Real.pi / 24) by
      push_cast; ring]
    have ht : truncTZ (32767 * (DAMPENING_FACTOR *
        Real.sin (((44:ℕ):ℝ) * (Real.pi / 24)))) = (-11598 : ℤ) := by
      apply truncTZ_eq_of_neg _ _ (by norm_num)
      · simp only [DAMPENING_FACTOR]; push_cast; linarith
      · simp only [DAMPENING_FACTOR]; push_cast; linarith
    rw [ht]
    norm_num

lemma vals_45 :
    synthSample 45 = (-8877 : ℤ) ∧ c10_formula 45 = (-8877 : ℤ) ∧
      c4_amendedSample 45 = (-8877 : ℤ) := by
  obtain ⟨hsl, hsh⟩ := sinNb_45
  have hcl := abs_le.mp (sin_code_close 45 (by norm_num))
  unfold sinN at hsl hsh hcl
  refine ⟨?_, ?_, ?_⟩
  · unfold synthSample
    rw [show ((45:ℕ):ℝ) * (1000 / 48000 * 2 * codePi) = ((45:ℕ):ℝ) * (codePi / 24) by
      push_cast; ring]
    apply truncTZ_eq_of_neg _ _ (by norm_num)
    · simp only [DAMPENING_FACTOR]; push_cast; linarith
    · simp only [DAMPENING_FACTOR]; push_cast; linarith
  · unfold c10_formula
    rw [show 2 * Real.pi * (1000 / 48000) * ((45:ℕ):ℝ) = ((45:ℕ):ℝ) * (Real.pi / 24) by
      push_cast; ring]
    apply truncTZ_eq_of_neg _ _ (by norm_num)
    · push_cast; linarith
    · push_cast; linarith
  · unfold c4_amendedSample
    rw [show 2 * Real.pi * (1000 / 48000) * ((45:ℕ):ℝ) = ((45:ℕ):ℝ) * (Real.pi / 24) by
      push_cast; ring]
    have ht : truncTZ (32767 * (DAMPENING_FACTOR *
        Real.sin (((45:ℕ):ℝ) * (Real.pi / 24)))) = (-8877 : ℤ) := by
      apply truncTZ_eq_of_neg _ _ (by norm_num)
      · simp only [DAMPENING_FACTOR]; push_cast; linarith
      · simp only [DAMPENING_FACTOR]; push_cast; linarith
    rw [ht]
    norm_num

lemma vals_46 :
    synthSample 46 = (-6003 : ℤ) ∧ c10_formula 46 = (-6003 : ℤ) ∧
      c4_amendedSample 46 = (-6003 : ℤ) := by
  obtain ⟨hsl, hsh⟩ := sinNb_46
  have hcl := abs_le.mp (sin_code_close 46 (by norm_num))
  unfold sinN at hsl hsh hcl
  refine ⟨?_, ?_, ?_⟩
  · unfold synthSample
    rw [show ((46:ℕ):ℝ) * (1000 / 48000 * 2 * codePi) = ((46:ℕ):ℝ) * (codePi / 24) by
      push_cast; ring]
    apply truncTZ_eq_of_neg _ _ (by norm_num)
    · simp only [DAMPENING_FACTOR]; push_cast; linarith
    · simp only [DAMPENING_FACTOR]; push_cast; linarith
  · unfold c10_formula
    rw [show 2 * Real.pi * (1000 / 48000) * ((46:ℕ):ℝ) = ((46:ℕ):ℝ) * (Real.pi / 24) by
      push_cast; ring]
    apply truncTZ_eq_of_neg _ _ (by norm_num)
    · push_cast; linarith
    · push_cast; linarith
  · unfold c4_amendedSample
    rw [show 2 * Real.pi * (1000 / 48000) * ((46:ℕ):ℝ) = ((46:ℕ):ℝ) * (Real.pi / 24) by
      push_cast; ring]
    have ht : truncTZ (32767 * (DAMPENING_FACTOR *
        Real.sin (((46:ℕ):ℝ) * (Real.pi / 24)))) = (-6003 : ℤ) := by
      apply truncTZ_eq_of_neg _ _ (by norm_num)
      · simp only [DAMPENING_FACTOR]; push_cast; linarith
      · simp only [DAMPENING_FACTOR]; push_cast; linarith
    rw [ht]
    norm_num

lemma vals_47 :
    synthSample 47 = (-3027 : ℤ) ∧ c10_formula 47 = (-3027 : ℤ) ∧
      c4_amendedSample 47 = (-3027 : ℤ) := by
  obtain ⟨hsl, hsh⟩ := sinNb_47
  have hcl := abs_le.mp (sin_code_close 47 (by norm_num))
  unfold sinN at hsl hsh hcl
  refine ⟨?_, ?_, ?_⟩
  · unfold synthSample
    rw [show ((47:ℕ):ℝ) * (1000 / 48000 * 2 * codePi) = ((47:ℕ):ℝ) * (codePi / 24) by
      push_cast; ring]
    apply truncTZ_eq_of_neg _ _ (by norm_num)
    · simp only [DAMPENING_FACTOR]; push_cast; linarith
    · simp only [DAMPENING_FACTOR]; push_cast; linarith
  · unfold c10_formula
    rw [show 2 * Real.pi * (1000 / 48000) * ((47:ℕ):ℝ) = ((47:ℕ):ℝ) * (Real.pi / 24) by
      push_cast; ring]
    apply truncTZ_eq_of_neg _ _ (by norm_num)
    · push_cast; linarith
    · push_cast; linarith
  · unfold c4_amendedSample
    rw [show 2 * Real.pi * (1000 / 48000) * ((47:ℕ):ℝ) = ((47:ℕ):ℝ) * (Real.pi / 24) by
      push_cast; ring]
    have ht : truncTZ (32767 * (DAMPENING_FACTOR *
        Real.sin (((47:ℕ):ℝ) * (Real.pi / 24)))) = (-3027 : ℤ) := by
      apply truncTZ_eq_of_neg _ _ (by norm_num)
      · simp only [DAMPENING_FACTOR]; push_cast; linarith
      · simp only [DAMPENING_FACTOR]; push_cast; linarith
    rw [ht]
    norm_num

/-- C10: every entry of the hard-coded lookup table equals the value the
computing variant stores at that index, which is the 16-bit truncation of
`32767 * 0.70794578438413791 * sin(2*pi*1000/48000*k)`. -/
theorem c10_table_matches_computed (k : ℕ) (hk : k < 48) :
    monoSine1kHzLoopUp.getD k 0 = synthSample k ∧
    monoSine1kHzLoopUp.getD k 0 = c10_formula k := by
  interval_cases k
  · exact ⟨by rw [vals_0.1]; decide, by rw [vals_0.2.1]; decide⟩
  · exact ⟨by rw [vals_1.1]; decide, by rw [vals_1.2.1]; decide⟩
  · exact ⟨by rw [vals_2.1]; decide, by rw [vals_2.2.1]; decide⟩
  · exact ⟨by rw [vals_3.1]; decide, by rw [vals_3.2.1]; decide⟩
  · exact ⟨by rw [vals_4.1]; decide, by rw [vals_4.2.1]; decide⟩
  · exact ⟨by rw [vals_5.1]; decide, by rw [vals_5.2.1]; decide⟩
  · exact ⟨by rw [vals_6.1]; decide, by rw [vals_6.2.1]; decide⟩
  · exact ⟨by rw [vals_7.1]; decide, by rw [vals_7.2.1]; decide⟩
  · exact ⟨by rw [vals_8.1]; decide, by rw [vals_8.2.1]; decide⟩
  · exact ⟨by rw [vals_9.1]; decide, by rw [vals_9.2.1]; decide⟩
  · exact ⟨by rw [vals_10.1]; decide, by rw [vals_10.2.1]; decide⟩
  · exact ⟨by rw [vals_11.1]; decide, by rw [vals_11.2.1]; decide⟩
  · exact ⟨by rw [vals_12.1]; decide, by rw [vals_12.2.1]; decide⟩
  · exact ⟨by rw [vals_13.1]; decide, by rw [vals_13.2.1]; decide⟩
  · exact ⟨by rw [vals_14.1]; decide, by rw [vals_14.2.1]; decide⟩
  · exact ⟨by rw [vals_15.1]; decide, by rw [vals_15.2.1]; decide⟩
  · exact ⟨by rw [vals_16.1]; decide, by rw [vals_16.2.1]; decide⟩
  · exact ⟨by rw [vals_17.1]; decide, by rw [vals_17.2.1]; decide⟩
  · exact ⟨by rw [vals_18.1]; decide, by rw [vals_18.2.1]; decide⟩
  · exact ⟨by rw [vals_19.1]; decide, by rw [vals_19.2.1]; decide⟩
  · exact ⟨by rw [vals_20.1]; decide, by rw [vals_20.2.1]; decide⟩
  · exact ⟨by rw [vals_21.1]; decide, by rw [vals_21.2.1]; decide⟩
  · exact ⟨by rw [vals_22.1]; decide, by rw [vals_22.2.1]; decide⟩
  · exact ⟨by rw [vals_23.1]; decide, by rw [vals_23.2.1]; decide⟩
  · exact ⟨by rw [vals_24.1]; decide, by rw [vals_24.2.1]; decide⟩
  · exact ⟨by rw [vals_25.1]; decide, by rw [vals_25.2.1]; decide⟩
  · exact ⟨by rw [vals_26.1]; decide, by rw [vals_26.2.1]; decide⟩
  · exact ⟨by rw [vals_27.1]; decide, by rw [vals_27.2.1]; decide⟩
  · exact ⟨by rw [vals_28.1]; decide, by rw [vals_28.2.1]; decide⟩
  · exact ⟨by rw [vals_29.1]; decide, by rw [vals_29.2.1]; decide⟩
  · exact ⟨by rw [vals_30.1]; decide, by rw [vals_30.2.1]; decide⟩
  · exact ⟨by rw [vals_31.1]; decide, by rw [vals_31.2.1]; decide⟩
  · exact ⟨by rw [vals_32.1]; decide, by rw [vals_32.2.1]; decide⟩
  · exact ⟨by rw [vals_33.1]; decide, by rw [vals_33.2.1]; decide⟩
  · exact ⟨by rw [vals_34.1]; decide, by rw [vals_34.2.1]; decide⟩
  · exact ⟨by rw [vals_35.1]; decide, by rw [vals_35.2.1]; decide⟩
  · exact ⟨by rw [vals_36.1]; decide, by rw [vals_36.2.1]; decide⟩
  · exact ⟨by rw [vals_37.1]; decide, by rw [vals_37.2.1]; decide⟩
  · exact ⟨by rw [vals_38.1]; decide, by rw [vals_38.2.1]; decide⟩
  · exact ⟨by rw [vals_39.1]; decide, by rw [vals_39.2.1]; decide⟩
  · exact ⟨by rw [vals_40.1]; decide, by rw [vals_40.2.1]; decide⟩
  · exact ⟨by rw [vals_41.1]; decide, by rw [vals_41.2.1]; decide⟩
  · exact ⟨by rw [vals_42.1]; decide, by rw [vals_42.2.1]; decide⟩
  · exact ⟨by rw [vals_43.1]; decide, by rw [vals_43.2.1]; decide⟩
  · exact ⟨by rw [vals_44.1]; decide, by rw [vals_44.2.1]; decide⟩
  · exact ⟨by rw [vals_45.1]; decide, by rw [vals_45.2.1]; decide⟩
  · exact ⟨by rw [vals_46.1]; decide, by rw [vals_46.2.1]; decide⟩
  · exact ⟨by rw [vals_47.1]; decide, by rw [vals_47.2.1]; decide⟩

/-- Witness for C10 at the sine peak. -/
theorem c10_table_matches_computed_witness :
    (12 < 48) ∧ monoSine1kHzLoopUp.getD 12 0 = synthSample 12 ∧
      monoSine1kHzLoopUp.getD 12 0 = c10_formula 12 :=
  ⟨by decide, c10_table_matches_computed 12 (by decide)⟩

/-- The spec formula rounds the scaled sine at index 1 up to 3028. -/
lemma c4_spec_at_one : c4_specSample 1 = 3028 := by
  obtain ⟨hsl, hsh⟩ := sinb_1
  unfold c4_specSample
  rw [show 2 * Real.pi * (1000 / 48000) * ((1:ℕ):ℝ) = ((1:ℕ):ℝ) * (Real.pi / 24) by
    push_cast; ring]
  unfold sinN at hsl hsh
  have hr : round (32767 * (DAMPENING_FACTOR *
      Real.sin (((1:ℕ):ℝ) * (Real.pi / 24)))) = (3028 : ℤ) := by
    rw [round_eq, Int.floor_eq_iff]
    constructor
    · simp only [DAMPENING_FACTOR]
      push_cast
      linarith
    · simp only [DAMPENING_FACTOR]
      push_cast
      linarith
  rw [hr]
  norm_num

/-- C4 counterexample: at index 1 the code stores 3027 (truncation toward
zero of about 3027.85) while the claimed formula rounds to 3028. -/
theorem c4_round_vs_truncate_counterexample : synthSample 1 ≠ c4_specSample 1 := by
  rw [vals_1.1, c4_spec_at_one]
  decide

/-- C4 amended: the synthesizer truncates toward zero instead of rounding —
for every index of the 48-sample period the stored sample equals the
truncation toward zero of `32767 * damping * sin(2*pi*1000/48000*k)`,
clamped to the 16-bit signed range. -/
theorem c4_synth_truncates (k : ℕ) (hk : k < 48) :
    synthSample k = c4_amendedSample k := by
  interval_cases k
  · rw [vals_0.1, vals_0.2.2]
  · rw [vals_1.1, vals_1.2.2]
  · rw [vals_2.1, vals_2.2.2]
  · rw [vals_3.1, vals_3.2.2]
  · rw [vals_4.1, vals_4.2.2]
  · rw [vals_5.1, vals_5.2.2]
  · rw [vals_6.1, vals_6.2.2]
  · rw [vals_7.1, vals_7.2.2]
  · rw [vals_8.1, vals_8.2.2]
  · rw [vals_9.1, vals_9.2.2]
  · rw [vals_10.1, vals_10.2.2]
  · rw [vals_11.1, vals_11.2.2]
  · rw [vals_12.1, vals_12.2.2]
  · rw [vals_13.1, vals_13.2.2]
  · rw [vals_14.1, vals_14.2.2]
  · rw [vals_15.1, vals_15.2.2]
  · rw [vals_16.1, vals_16.2.2]
  · rw [vals_17.1, vals_17.2.2]
  · rw [vals_18.1, vals_18.2.2]
  · rw [vals_19.1, vals_19.2.2]
  · rw [vals_20.1, vals_20.2.2]
  · rw [vals_21.1, vals_21.2.2]
  · rw [vals_22.1, vals_22.2.2]
  · rw [vals_23.1, vals_23.2.2]
  · rw [vals_24.1, vals_24.2.2]
  · rw [vals_25.1, vals_25.2.2]
  · rw [vals_26.1, vals_26.2.2]
  · rw [vals_27.1, vals_27.2.2]
  · rw [vals_28.1, vals_28.2.2]
  · rw [vals_29.1, vals_29.2.2]
  · rw [vals_30.1, vals_30.2.2]
  · rw [vals_31.1, vals_31.2.2]
  · rw [vals_32.1, vals_32.2.2]
  · rw [vals_33.1, vals_33.2.2]
  · rw [vals_34.1, vals_34.2.2]
  · rw [vals_35.1, vals_35.2.2]
  · rw [vals_36.1, vals_36.2.2]
  · rw [vals_37.1, vals_37.2.2]
  · rw [vals_38.1, vals_38.2.2]
  · rw [vals_39.1, vals_39.2.2]
  · rw [vals_40.1, vals_40.2.2]
  · rw [vals_41.1, vals_41.2.2]
  · rw [vals_42.1, vals_42.2.2]
  · rw [vals_43.1, vals_43.2.2]
  · rw [vals_44.1, vals_44.2.2]
  · rw [vals_45.1, vals_45.2.2]
  · rw [vals_46.1, vals_46.2.2]
  · rw [vals_47.1, vals_47.2.2]

/-- Witness for C4 amended at index 6. -/
theorem c4_synth_truncates_witness :
    (6 < 48) ∧ synthSample 6 = c4_amendedSample 6 :=
  ⟨by decide, c4_synth_truncates 6 (by decide)⟩

end AlsaPlayground
